import Mathlib

/-!
Verification of the static style-extraction transform
(`packages/static-css/src/index.ts`, the version with the
`StaticStyledComponents` registry record).

The development shallowly embeds the transformer: the TypeScript AST
fragment the transform inspects becomes a family of mutual inductives,
`ts.Symbol` becomes `Nat`, the per-file registries become association
lists with JavaScript `Map` semantics (update in place, else append),
and the two external collaborators — the constant evaluator
(`evaluate` together with `isStaticElement`/`isStaticComponent` from
`./shared`, neither of which is part of the transform's own file) and
the style engine (`glitz.injectStyle`) — are oracle fields of a
`Program` structure, so theorems quantify over their behaviour or pin
it with hypotheses.  The diagnostics reporter is modelled as always
present, accumulating into the traversal state; the `file`/`source`
text fields of a diagnostic are elided (locations are abstract `Nat`
ids standing for positions).
-/

namespace StaticCss

/-! ## Evaluated style values

`EvaluatedStyle` in the source maps string keys to primitives, arrays
or nested objects; the evaluator may also place function values (with
an optional originating `tsNode`) at leaves.  Mutual inductives keep
structural recursion (and hence kernel reduction) available. -/

mutual

inductive Value where
  | str (s : String)
  | num (n : Int)
  | undef
  | funcVal (tsNode : Option Nat)
  | arr (elems : ValueList)
  | obj (fields : Fields)
  deriving DecidableEq

inductive ValueList where
  | nil
  | cons (v : Value) (tl : ValueList)
  deriving DecidableEq

/-- An `EvaluatedStyle` object: ordered string-keyed fields. -/
inductive Fields where
  | nil
  | cons (key : String) (v : Value) (tl : Fields)
  deriving DecidableEq

end

/-- `RequiresRuntimeResult`: opaque marker carrying a message and the
originating node's location (what `getDiagnostics()` exposes). -/
structure RequiresRuntimeResult where
  message : String
  node : Nat
  deriving DecidableEq

/-- What `evaluate(styleObject, program, {})` can hand back once cast to
`EvaluatedStyle | RequiresRuntimeResult`. -/
inductive StyleEvalResult where
  | style (fields : Fields)
  | rr (r : RequiresRuntimeResult)
  deriving DecidableEq

/-! ## `anyValuesAreFunctions`

Source: walks the object with `for..in`; a function value is returned
directly, any `typeof === 'object'` value (which in JavaScript includes
arrays) is recursed into.  The returned function carries its `tsNode`. -/

mutual

/-- `anyValuesAreFunctions(style)`: the first function value found in the
object, else `none` (the source returns `false`). -/
def anyValuesAreFunctions : Fields → Option Value
  | .nil => none
  | .cons _ v tl =>
    match anyValuesAreFunctionsValue v with
    | some f => some f
    | none => anyValuesAreFunctions tl

/-- The per-value step of `anyValuesAreFunctions`: a function is returned,
objects and arrays (both `typeof 'object'`) are recursed into. -/
def anyValuesAreFunctionsValue : Value → Option Value
  | .funcVal t => some (.funcVal t)
  | .obj fs => anyValuesAreFunctions fs
  | .arr es => anyValuesAreFunctionsList es
  | _ => none

/-- `for..in` over an array visits its indices: each element is checked. -/
def anyValuesAreFunctionsList : ValueList → Option Value
  | .nil => none
  | .cons v tl =>
    match anyValuesAreFunctionsValue v with
    | some f => some f
    | none => anyValuesAreFunctionsList tl

end

/-! ## `isEvaluableStyle`

Source: `false` on a `RequiresRuntimeResult`; otherwise every value must
be non-function and, when it is an object that is *not an array*
(`!Array.isArray(value)`), recursively evaluable.  Note that arrays are
not descended into here, unlike in `anyValuesAreFunctions`. -/

mutual

def isEvaluableFields : Fields → Bool
  | .nil => true
  | .cons _ v tl => isEvaluableValue v && isEvaluableFields tl

def isEvaluableValue : Value → Bool
  | .funcVal _ => false
  | .obj fs => isEvaluableFields fs
  | _ => true

end

/-- `isEvaluableStyle(object)` on the `EvaluatedStyle | RequiresRuntimeResult`
union. -/
def isEvaluableStyle : StyleEvalResult → Bool
  | .rr _ => false
  | .style fs => isEvaluableFields fs

/-! ## Spec-side notion of a function leaf

The specification says a descriptor is non-evaluable when *any leaf value
at any nesting depth — including inside nested objects and inside
arrays — is function-typed*.  These definitions follow the spec's words
(not the source) and exist to be compared with the source's detectors. -/

mutual

/-- Spec notion: some leaf of the object, at any depth (through objects
and arrays alike), is a function. -/
def hasFunctionLeafFields : Fields → Bool
  | .nil => false
  | .cons _ v tl => hasFunctionLeafValue v || hasFunctionLeafFields tl

def hasFunctionLeafValue : Value → Bool
  | .funcVal _ => true
  | .obj fs => hasFunctionLeafFields fs
  | .arr es => hasFunctionLeafList es
  | _ => false

def hasFunctionLeafList : ValueList → Bool
  | .nil => false
  | .cons v tl => hasFunctionLeafValue v || hasFunctionLeafList tl

end

mutual

/-- The function value `f` occurs as a leaf of the object. -/
def funcLeafMemFields (f : Value) : Fields → Bool
  | .nil => false
  | .cons _ v tl => funcLeafMemValue f v || funcLeafMemFields f tl

def funcLeafMemValue (f : Value) : Value → Bool
  | .funcVal t => (Value.funcVal t) == f
  | .obj fs => funcLeafMemFields f fs
  | .arr es => funcLeafMemList f es
  | _ => false

def funcLeafMemList (f : Value) : ValueList → Bool
  | .nil => false
  | .cons v tl => funcLeafMemValue f v || funcLeafMemList f tl

end

/-! ## Registry state -/

/-- `StaticStyledComponent` (the `parent` back-reference of the source is
never written by this file, so it is omitted). -/
structure StaticStyledComponent where
  componentName : String
  elementName : String
  styles : List Fields
  deriving DecidableEq

/-- One entry of `symbolsWithReferencesOutsideJsx`: the recorded component,
the reference sites (`node.parent` locations, in push order) and the
reporting latch. -/
structure OutsideJsxUsage where
  component : StaticStyledComponent
  references : List Nat
  hasBeenReported : Bool
  deriving DecidableEq

inductive Severity where
  | error
  | warning
  | info
  deriving DecidableEq

structure InnerDiagnostic where
  message : String
  line : Nat
  severity : Severity
  deriving DecidableEq

/-- A reported diagnostic (`file` and `source` text elided; `line` is the
abstract location id of the node reported on). -/
structure Diagnostic where
  message : String
  severity : Severity
  line : Nat
  inner : Option InnerDiagnostic
  deriving DecidableEq

/-- JavaScript `Map` on `Nat` keys as an association list: `set` updates an
existing key in place (keeping insertion order) and otherwise appends. -/
def mapGet {α : Type} : List (Nat × α) → Nat → Option α
  | [], _ => none
  | p :: tl, k => if p.1 == k then some p.2 else mapGet tl k

def mapHas {α : Type} (m : List (Nat × α)) (k : Nat) : Bool :=
  (mapGet m k).isSome

def mapSet {α : Type} (m : List (Nat × α)) (k : Nat) (v : α) : List (Nat × α) :=
  if mapHas m k then
    m.map (fun p => if p.1 == k then (k, v) else p)
  else
    m ++ [(k, v)]

/-- `StaticStyledComponents`: the three per-file registries, plus the
accumulated diagnostics (the reporter is modelled as always present). -/
structure TState where
  symbolToComponent : List (Nat × StaticStyledComponent)
  symbolsWithReferencesOutsideJsx : List (Nat × OutsideJsxUsage)
  extendedComponentSymbols : List Nat
  diagnostics : List Diagnostic
  deriving DecidableEq

def emptyState : TState :=
  { symbolToComponent := []
    symbolsWithReferencesOutsideJsx := []
    extendedComponentSymbols := []
    diagnostics := [] }

/-! ## The AST fragment

Only the node shapes the transform inspects are modelled.  `loc` fields
are abstract position ids (synthesized nodes get `0`); an identifier
carries the result of `typeChecker.getSymbolAtLocation` as `sym`
(`none` when the checker finds no symbol, as for synthesized
identifiers or undeclared names).  Object-literal expressions are
opaque to the transform — it only tests `isObjectLiteralExpression` and
hands them to `evaluate` — so they carry an id `olId` keying the
evaluator oracle, and have no visitable children in this model.  JSDoc
tags live on statements (`(node as any).jsDoc`), as they do in the
TypeScript trees the transform sees. -/

mutual

inductive Expr where
  | ident (loc : Nat) (sym : Option Nat) (text : String)
  | strLit (loc : Nat) (s : String)
  | objLit (loc : Nat) (olId : Nat)
  | call (loc : Nat) (callee : Expr) (args : ExprList)
  | propAccess (loc : Nat) (obj : Expr) (name : String)
  | arrowFn (loc : Nat) (body : ArrowBody)
  | parenE (loc : Nat) (e : Expr)
  | condE (loc : Nat) (c t f : Expr)
  | jsxSelf (loc : Nat) (tag : Expr) (attrs : AttrList)
  | jsxElem (loc : Nat) (openLoc : Nat) (tag : Expr) (attrs : AttrList)
      (children : ExprList) (closeLoc : Nat) (closeTag : Expr)
  deriving DecidableEq

inductive ArrowBody where
  | exprBody (e : Expr)
  | blockBody (loc : Nat) (stmts : StmtList)
  deriving DecidableEq

inductive OptExpr where
  | noneE
  | someE (e : Expr)
  deriving DecidableEq

inductive ExprList where
  | nil
  | cons (e : Expr) (tl : ExprList)
  deriving DecidableEq

/-- A `JsxAttribute`: name (attribute names are plain identifiers whose
symbols play no role), and an optional initializer.  `initLoc` is the
position of the `JsxExpression` wrapper (`node.parent` of an identifier
inside the attribute value). -/
inductive JsxAttr where
  | mk (loc : Nat) (name : String) (initLoc : Nat) (init : OptExpr)
  deriving DecidableEq

inductive AttrList where
  | nil
  | cons (a : JsxAttr) (tl : AttrList)
  deriving DecidableEq

/-- A `VariableDeclaration` with an identifier name.  Declared names
always resolve, so `nameSym : Nat`. -/
inductive VarDecl where
  | mk (loc : Nat) (nameSym : Nat) (nameText : String) (init : OptExpr)
  deriving DecidableEq

inductive DeclList where
  | nil
  | cons (d : VarDecl) (tl : DeclList)
  deriving DecidableEq

inductive Stmt where
  | varStmt (loc : Nat) (exported : Bool) (jsdocTags : List String) (decls : DeclList)
  | exprStmt (loc : Nat) (jsdocTags : List String) (e : Expr)
  | retStmt (loc : Nat) (jsdocTags : List String) (e : OptExpr)
  deriving DecidableEq

inductive StmtList where
  | nil
  | cons (s : Stmt) (tl : StmtList)
  deriving DecidableEq

end

def DeclList.length : DeclList → Nat
  | .nil => 0
  | .cons _ tl => 1 + tl.length

def ExprList.length : ExprList → Nat
  | .nil => 0
  | .cons _ tl => 1 + tl.length

/-- `hasJSDocTag(node, tag)` for the nodes that carry JSDoc. -/
def hasJSDocTag (s : Stmt) (tag : String) : Bool :=
  match s with
  | .varStmt _ _ tags _ => tags.contains tag
  | .exprStmt _ tags _ => tags.contains tag
  | .retStmt _ tags _ => tags.contains tag

def stmtsAny (f : Stmt → Bool) : StmtList → Bool
  | .nil => false
  | .cons s tl => f s || stmtsAny f tl

/-- `node.getText()` of a call's callee, as compared against `styledName`
in `isStaticComponentVariableUse`. -/
def exprText : Expr → String
  | .ident _ _ t => t
  | .propAccess _ e n => exprText e ++ "." ++ n
  | _ => ""

def styledName : String := "styled"

/-! ## Ancestor frames

The source consults `node.parent` chains; the purely functional
traversal instead threads the ancestor chain downwards.  A frame is the
kind and location of one ancestor, nearest first. -/

inductive FrameKind where
  | varDeclF (sym : Nat)
  | jsxSelfF
  | jsxOpeningF
  | jsxClosingF
  | jsxElemF
  | callExprF (calleeText : String)
  | returnStmtF
  | arrowFnF
  | parenF
  | condF
  | propAccessF
  | jsxAttrF
  | jsxExprF
  | varStmtF
  | exprStmtF
  | blockF
  | sourceFileF
  deriving DecidableEq

structure Frame where
  kind : FrameKind
  loc : Nat
  deriving DecidableEq

/-- `node.parent`'s position, as pushed into a `references` list. -/
def parentLoc : List Frame → Nat
  | [] => 0
  | f :: _ => f.loc

/-- `isStaticComponentVariableUse(node)`: `node.parent` is a variable
declaration, a JSX element tag position, or a call whose callee's text
is `styled`. -/
def isStaticComponentVariableUse (frames : List Frame) : Bool :=
  match frames with
  | [] => false
  | f :: _ =>
    match f.kind with
    | .varDeclF _ => true
    | .jsxSelfF => true
    | .jsxOpeningF => true
    | .jsxClosingF => true
    | .callExprF t => t == styledName
    | _ => false

/-- `getComponentSymbol(node, typeChecker)`: walk the chain (the head is
the node itself) until a named function declaration, or an arrow/function
expression whose parent is a variable declaration; stop at the source
file.  Function declarations do not occur in this AST fragment, so only
the arrow case can produce a symbol. -/
def getComponentSymbol : List FrameKind → Option Nat
  | [] => none
  | k :: rest =>
    match k with
    | .sourceFileF => none
    | .arrowFnF =>
      match rest with
      | .varDeclF sym :: _ => some sym
      | _ => getComponentSymbol rest
    | _ => getComponentSymbol rest

/-- The `while (ts.isParenthesizedExpression(node)) node = node.parent;`
loop of `isTopLevelJsxInComposedComponent`, translated as written: it
ascends only while the *current* node is itself a parenthesized
expression — so starting from a JSX node it never moves. -/
def skipParensWhileParen : FrameKind → List Frame → FrameKind × List Frame
  | .parenF, f :: rest => skipParensWhileParen f.kind rest
  | k, fs => (k, fs)

/-- `isTopLevelJsxInComposedComponent(node, ...)`: after the (inert) paren
walk, the nearest enclosing component's symbol must be in
`extendedComponentSymbols` and `node.parent` must be a return statement
or an arrow function. -/
def isTopLevelJsxInComposedComponent (nodeKind : FrameKind) (frames : List Frame)
    (st : TState) : Bool :=
  let kfs := skipParensWhileParen nodeKind frames
  let containing := getComponentSymbol (kfs.1 :: kfs.2.map Frame.kind)
  match containing with
  | some sym =>
    if st.extendedComponentSymbols.contains sym then
      match kfs.2 with
      | f :: _ => f.kind == .returnStmtF || f.kind == .arrowFnF
      | [] => false
    else
      false
  | none => false

/-! ## External boundaries

The evaluator and the style engine are collaborators outside this file:
they are oracle fields of `Program`.  `evalStyle` keys on an object
literal's `olId` (the transform always calls `evaluate` on the literal
with an empty environment); `evalComponent` bundles
`evaluate(declaration.initializer)` with the `isStaticElement` /
`isStaticComponent` shape test of `./shared`.  Modelled from the spec:
`isStaticElement`/`isStaticComponent` are code of this repository not
under `src/` — per the spec they accept exactly a
`{elementName, styles[]}` shape, which `StaticShape` captures. -/

/-- The `{elementName, styles[]}` shape accepted by
`isStaticElement`/`isStaticComponent`. -/
structure StaticShape where
  elementName : String
  styles : List StyleEvalResult

/-- `glitz.injectStyle` accepts a single style object (the `styled.Tag`
usage path) or an array (the registered-component path). -/
inductive StyleArg where
  | one (s : Fields)
  | many (ss : List Fields)
  deriving DecidableEq

structure Program where
  evalStyle : Nat → StyleEvalResult
  evalComponent : Expr → Option StaticShape
  injectStyle : StyleArg → String

/-! ## `getCssData` -/

/-- `(propFunc as FunctionWithTsNode).tsNode ?? node`. -/
def funcTsNodeOr (f : Value) (fallback : Nat) : Nat :=
  match f with
  | .funcVal (some t) => t
  | _ => fallback

/-- `getCssData(tsStyle, program, node)` (the overload without a parent):
evaluator failures pass through; a function found anywhere in the result
(through objects and arrays) becomes a fresh `RequiresRuntimeResult`
whose location is the function's `tsNode`, falling back to `node`. -/
def getCssData (prog : Program) (olId : Nat) (nodeLoc : Nat) : StyleEvalResult :=
  match prog.evalStyle olId with
  | .rr r => .rr r
  | .style s =>
    match anyValuesAreFunctions s with
    | some f => .rr ⟨"Functions in style objects requires runtime", funcTsNodeOr f nodeLoc⟩
    | none => .style s

/-- What the parent overload of `getCssData` can produce: the source
returns the bare `RequiresRuntimeResult` *before* reaching the
`parentComponent` branch, although this overload's callers expect an
array — `bare` records that shape escape. -/
inductive CssDataParentResult where
  | bare (r : RequiresRuntimeResult)
  | list (xs : List StyleEvalResult)
  deriving DecidableEq

/-- `getCssData(tsStyle, program, node, parentComponent)`:
`[...parentComponent.styles, style]` on success, the bare marker
otherwise. -/
def getCssDataParent (prog : Program) (olId : Nat) (nodeLoc : Nat)
    (parent : StaticStyledComponent) : CssDataParentResult :=
  match prog.evalStyle olId with
  | .rr r => .bare r
  | .style s =>
    match anyValuesAreFunctions s with
    | some f => .bare ⟨"Functions in style objects requires runtime", funcTsNodeOr f nodeLoc⟩
    | none => .list (parent.styles.map .style ++ [.style s])

/-! ## Diagnostics helpers -/

def reportRequiresRuntimeResult (message : String) (sev : Severity)
    (results : List RequiresRuntimeResult) (nodeLoc : Nat) : List Diagnostic :=
  results.map fun r =>
    { message := message
      severity := sev
      line := nodeLoc
      inner := some { message := r.message, line := r.node, severity := sev } }

def reportRequiresRuntimeResultWhenShouldBeStatic
    (results : List RequiresRuntimeResult) (nodeLoc : Nat) : List Diagnostic :=
  reportRequiresRuntimeResult
    "Component marked with @glitz-static could not be statically evaluated"
    .error results nodeLoc

/-- `cssData.filter(isRequiresRuntimeResult)`. -/
def filterRequiresRuntime : List StyleEvalResult → List RequiresRuntimeResult
  | [] => []
  | .rr r :: tl => r :: filterRequiresRuntime tl
  | .style _ :: tl => filterRequiresRuntime tl

/-- The single-value report sites pass the whole
`EvaluatedStyle | RequiresRuntimeResult` union to the reporter; reporting
a plain style object would throw in JavaScript (`getDiagnostics` is not a
function), but every such site is only reached with a
`RequiresRuntimeResult` (see `getCssData_not_evaluable_is_rr`), so the
style case reports nothing here. -/
def rrOf : StyleEvalResult → List RequiresRuntimeResult
  | .rr r => [r]
  | .style _ => []

/-- `cssData as EvaluatedStyle[]` — the cast applied once every entry
passed `isEvaluableStyle`. -/
def asEvaluatedStyles : List StyleEvalResult → List Fields
  | [] => []
  | .style s :: tl => s :: asEvaluatedStyles tl
  | .rr _ :: tl => asEvaluatedStyles tl

def reportTopLevelJsxInComposedComponent (nodeLoc : Nat) : Diagnostic :=
  { message := "styled.[Element] cannot be statically extracted inside components that are decorated by other components"
    severity := .info
    line := nodeLoc
    inner := none }

/-! ## `getCssDataFromCssProp` and attribute plumbing -/

/-- `props.filter(p => p.name.text !== 'css')`. -/
def passThroughProps : AttrList → AttrList
  | .nil => .nil
  | .cons a tl =>
    match a with
    | .mk _ name _ _ =>
      if name == "css" then passThroughProps tl
      else .cons a (passThroughProps tl)

def AttrList.append : AttrList → AttrList → AttrList
  | .nil, ys => ys
  | .cons a tl, ys => .cons a (AttrList.append tl ys)

/-- `node.attributes.properties.find(p => p.name.text === 'css')`. -/
def findCssAttr : AttrList → Option JsxAttr
  | .nil => none
  | .cons a tl =>
    match a with
    | .mk _ name _ _ => if name == "css" then some a else findCssAttr tl

/-- `getCssDataFromCssProp(node, program, allShouldBeStatic, reporter)`:
the evaluated css-prop style on success, plus the diagnostics the call
emits.  Only the file-level `allShouldBeStatic` flag grades severity. -/
def getCssDataFromCssProp (prog : Program) (attrs : AttrList) (nodeLoc : Nat)
    (allShouldBeStatic : Bool) : Option Fields × List Diagnostic :=
  match findCssAttr attrs with
  | some (.mk _ _ _ (.someE (.objLit _ olId))) =>
    let cssData := getCssData prog olId nodeLoc
    if isEvaluableStyle cssData then
      match cssData with
      | .style s => (some s, [])
      | .rr _ => (none, [])
    else if allShouldBeStatic then
      (none, reportRequiresRuntimeResultWhenShouldBeStatic (rrOf cssData) nodeLoc)
    else
      (none, reportRequiresRuntimeResult "css prop could not be statically evaluated"
        .info (rrOf cssData) nodeLoc)
  | _ => (none, [])

/-- `escapedText.toString().toLowerCase()` for ASCII tag names, written
over the character list so that it reduces in the kernel. -/
def charToLower (c : Char) : Char :=
  if 65 ≤ c.toNat ∧ c.toNat ≤ 90 then Char.ofNat (c.toNat + 32) else c

def toLowerStr (s : String) : String :=
  ⟨s.data.map charToLower⟩

/-- The synthesized `className="..."` attribute. -/
def classNameAttr (cls : String) : JsxAttr :=
  .mk 0 "className" 0 (.someE (.strLit 0 cls))

/-! ## `visitNode` — the registry-recording prologue -/

def mapUpdate {α : Type} (m : List (Nat × α)) (k : Nat) (f : α → α) : List (Nat × α) :=
  m.map (fun p => if p.1 == k then (p.1, f p.2) else p)

/-- The `ts.isIdentifier(node) && !isStaticComponentVariableUse(node)`
prologue: a resolved identifier of a registered component used outside
the allowed positions gets (or extends) an entry in
`symbolsWithReferencesOutsideJsx`, pushing `node.parent`'s location. -/
def recordOutsideJsxReference (st : TState) (frames : List Frame)
    (sym : Option Nat) : TState :=
  if isStaticComponentVariableUse frames then st
  else
    match sym with
    | none => st
    | some s =>
      match mapGet st.symbolToComponent s with
      | none => st
      | some component =>
        let st1 :=
          if mapHas st.symbolsWithReferencesOutsideJsx s then st
          else
            { st with
              symbolsWithReferencesOutsideJsx :=
                st.symbolsWithReferencesOutsideJsx ++ [(s, ⟨component, [], false⟩)] }
        { st1 with
          symbolsWithReferencesOutsideJsx :=
            mapUpdate st1.symbolsWithReferencesOutsideJsx s
              (fun u => { u with references := u.references ++ [parentLoc frames] }) }

/-- The `isFirstPass && styled(...)` prologue: the first argument's
symbol joins `extendedComponentSymbols`. -/
def recordExtendedComponent (st : TState) (pass1 : Bool) (e : Expr) : TState :=
  if pass1 then
    match e with
    | .call _ (.ident _ _ calleeText) (.cons arg0 _) =>
      if calleeText == styledName then
        match arg0 with
        | .ident _ (some sym) _ =>
          { st with extendedComponentSymbols := st.extendedComponentSymbols ++ [sym] }
        | _ => st
      else st
    | _ => st
  else st

/-! ## Declaration branches (first pass) -/

/-- The outcome of one declaration branch: `ret` models the source's
`return node` after a successful registration, `fallthrough` continues
to the next branch with the (possibly diagnostic-extended) state. -/
inductive BranchOutcome where
  | ret (node : Stmt) (st : TState)
  | fallthrough (st : TState)

/-- `styled.<Tag>({...})` — the direct form (source lines with the
`ts.isPropertyAccessExpression(callExpr.expression)` guard). -/
def directFormBranch (prog : Program) (shouldBeStatic : Bool) (node : Stmt)
    (nodeLoc : Nat) (componentSymbol : Nat) (componentName : String)
    (callee : Expr) (args : ExprList) (st : TState) : BranchOutcome :=
  match callee with
  | .propAccess _ (.ident _ _ objText) elementName =>
    if objText == styledName then
      match args with
      | .cons (.objLit _ olId) .nil =>
        let cssData := getCssData prog olId nodeLoc
        if isEvaluableStyle cssData then
          match cssData with
          | .style styleFields =>
            .ret node
              { st with
                symbolToComponent :=
                  mapSet st.symbolToComponent componentSymbol
                    ⟨componentName, elementName, [styleFields]⟩ }
          | .rr _ => .fallthrough st
        else
          .fallthrough
            { st with
              diagnostics := st.diagnostics ++
                (if shouldBeStatic then
                  reportRequiresRuntimeResultWhenShouldBeStatic (rrOf cssData) nodeLoc
                else
                  reportRequiresRuntimeResult
                    "Styled component could not be statically evaluated"
                    .info (rrOf cssData) nodeLoc) }
      | _ => .fallthrough st
    else .fallthrough st
  | _ => .fallthrough st

/-- `styled(Parent, {...})` — the extension form.  When the evaluated
child style is a `RequiresRuntimeResult` (or contains a function), the
parent overload of `getCssData` returns the *bare* marker and the
caller's `cssData.every(...)` throws a `TypeError`: that is the
`.error` case. -/
def extensionFormBranch (prog : Program) (shouldBeStatic : Bool) (node : Stmt)
    (nodeLoc : Nat) (componentSymbol : Nat) (componentName : String)
    (callee : Expr) (args : ExprList) (st : TState) :
    Except String BranchOutcome :=
  match callee with
  | .ident _ _ calleeText =>
    if calleeText == styledName then
      match args with
      | .cons parentArg (.cons styleArg .nil) =>
        match parentArg, styleArg with
        | .ident _ parentSymOpt _, .objLit _ olId =>
          match parentSymOpt with
          | none => .ok (.fallthrough st)
          | some parentSymbol =>
            match mapGet st.symbolToComponent parentSymbol with
            | none => .ok (.fallthrough st)
            | some parent =>
              match getCssDataParent prog olId nodeLoc parent with
              | .bare _ => .error "TypeError: cssData.every is not a function"
              | .list xs =>
                if xs.all isEvaluableStyle then
                  .ok (.ret node
                    { st with
                      symbolToComponent :=
                        mapSet st.symbolToComponent componentSymbol
                          ⟨componentName, parent.elementName, asEvaluatedStyles xs⟩ })
                else
                  .ok (.fallthrough
                    { st with
                      diagnostics := st.diagnostics ++
                        (if shouldBeStatic then
                          reportRequiresRuntimeResultWhenShouldBeStatic
                            (filterRequiresRuntime xs) nodeLoc
                        else
                          reportRequiresRuntimeResult
                            "Styled component could not be statically evaluated"
                            .info (filterRequiresRuntime xs) nodeLoc) })
        | _, _ => .ok (.fallthrough st)
      | _ => .ok (.fallthrough st)
    else .ok (.fallthrough st)
  | _ => .ok (.fallthrough st)

/-- `componentName.length > 1 && name[0] === name[0].toUpperCase() &&
name[1] === name[1].toLowerCase()`. -/
def pascalCaseName (name : String) : Bool :=
  match name.data with
  | c0 :: c1 :: _ => c0.toUpper == c0 && c1.toLower == c1
  | _ => false

/-- The Pascal-case heuristic: `evaluate(declaration.initializer)` plus
the `isStaticElement`/`isStaticComponent` shape test (the
`evalComponent` oracle); no early return — control always falls out of
the declaration block afterwards. -/
def pascalCaseHeuristicBranch (prog : Program) (shouldBeStatic : Bool)
    (nodeLoc : Nat) (componentSymbol : Nat) (componentName : String)
    (declInit : Expr) (st : TState) : TState :=
  if pascalCaseName componentName then
    match prog.evalComponent declInit with
    | some shape =>
      if shape.styles.all isEvaluableStyle then
        { st with
          symbolToComponent :=
            mapSet st.symbolToComponent componentSymbol
              ⟨componentName, shape.elementName, asEvaluatedStyles shape.styles⟩ }
      else
        { st with
          diagnostics := st.diagnostics ++
            (if shouldBeStatic then
              reportRequiresRuntimeResultWhenShouldBeStatic
                (filterRequiresRuntime shape.styles) nodeLoc
            else
              reportRequiresRuntimeResult
                "Styled component could not be statically evaluated"
                .info (filterRequiresRuntime shape.styles) nodeLoc) }
    | none => st
  else st

/-! ## `replaceComponentDeclarationNode` (second and third pass) -/

def replaceComponentDeclarationNode (componentSymbol : Nat)
    (componentName : String) (node : Stmt) (st : TState)
    (shouldBeStatic : Bool) : Option Stmt × TState :=
  match mapGet st.symbolsWithReferencesOutsideJsx componentSymbol with
  | some usage =>
    if usage.hasBeenReported then (some node, st)
    else
      let ds := usage.references.map fun refLoc =>
        ({ message := "Component '" ++ componentName ++
             "' cannot be statically extracted since it's used outside of JSX"
           severity := if shouldBeStatic then Severity.error else Severity.info
           line := refLoc
           inner := none } : Diagnostic)
      (some node,
        { st with
          symbolsWithReferencesOutsideJsx :=
            mapSet st.symbolsWithReferencesOutsideJsx componentSymbol
              { usage with hasBeenReported := true }
          diagnostics := st.diagnostics ++ ds })
  | none =>
    if mapHas st.symbolToComponent componentSymbol then (none, st)
    else (some node, st)

/-! ## `visitNode` on statements

Statement nodes can hit the `glitz-dynamic` early return, the variable
statement block (declaration analysis in the first pass,
`replaceComponentDeclarationNode` afterwards), and nothing else: a
removed statement is the `none` result. -/

def visitNodeStmt (prog : Program) (pass1 allShouldBeStatic : Bool)
    (st : TState) (s : Stmt) : Except String (Option Stmt × TState) :=
  if hasJSDocTag s "glitz-dynamic" then .ok (some s, st)
  else
    match s with
    | .varStmt loc exported _tags decls =>
      if exported then .ok (some s, st)
      else
        match decls with
        | .cons (.mk _dloc nameSym nameText (.someE declInit)) .nil =>
          let shouldBeStatic := hasJSDocTag s "glitz-static" || allShouldBeStatic
          if !pass1 then
            .ok (replaceComponentDeclarationNode nameSym nameText s st shouldBeStatic)
          else
            match declInit with
            | .call callLoc callee args =>
              match directFormBranch prog shouldBeStatic s loc nameSym nameText
                  callee args st with
              | .ret node st1 => .ok (some node, st1)
              | .fallthrough st1 => do
                match ← extensionFormBranch prog shouldBeStatic s loc nameSym
                    nameText callee args st1 with
                | .ret node st2 => .ok (some node, st2)
                | .fallthrough st2 =>
                  .ok (some s,
                    pascalCaseHeuristicBranch prog shouldBeStatic loc nameSym
                      nameText (.call callLoc callee args) st2)
            | _ => .ok (some s, st)
        | _ => .ok (some s, st)
    | _ => .ok (some s, st)

/-! ## `visitNode` on expressions -/

/-- Rewrite of a self-closing `styled.<Tag>` or registered-component
usage: concrete tag, `css` stripped, `className` appended
(`ts.createJsxSelfClosingElement`; synthesized positions are `0`). -/
def rewriteJsxSelf (elementName : String) (attrs : AttrList) (cls : String) : Expr :=
  .jsxSelf 0 (.ident 0 none elementName)
    (AttrList.append (passThroughProps attrs) (.cons (classNameAttr cls) .nil))

/-- Rewrite of a `JsxElement`: fresh opening and closing elements around
the original children. -/
def rewriteJsxElem (elementName : String) (attrs : AttrList)
    (children : ExprList) (cls : String) : Expr :=
  .jsxElem 0 0 (.ident 0 none elementName)
    (AttrList.append (passThroughProps attrs) (.cons (classNameAttr cls) .nil))
    children 0 (.ident 0 none elementName)

/-- `visitNode` for expression nodes, in source order: the identifier
prologue, the `extendedComponentSymbols` prologue, the second-pass JSX
blocks (`styled.<Tag>` self-closing, `JsxElement` with `styled.<Tag>` or
registered-identifier tag), and — in *every* pass — the self-closing
registered-identifier block, which in the source sits outside the
`!isFirstPass` guard. -/
def visitNodeExpr (prog : Program) (pass1 allShouldBeStatic : Bool)
    (frames : List Frame) (st : TState) (e : Expr) : Expr × TState :=
  let st :=
    match e with
    | .ident _ sym _ => recordOutsideJsxReference st frames sym
    | _ => st
  let st := recordExtendedComponent st pass1 e
  match e with
  | .jsxSelf loc tag attrs =>
    match tag with
    | .propAccess _ (.ident _ _ objText) tagName =>
      if objText == styledName && !pass1 then
        if isTopLevelJsxInComposedComponent .jsxSelfF frames st then
          (e, { st with diagnostics :=
                  st.diagnostics ++ [reportTopLevelJsxInComposedComponent loc] })
        else
          let elementName := toLowerStr tagName
          let cd := getCssDataFromCssProp prog attrs loc allShouldBeStatic
          let st := { st with diagnostics := st.diagnostics ++ cd.2 }
          match cd.1 with
          | some cssData =>
            (rewriteJsxSelf elementName attrs (prog.injectStyle (.one cssData)), st)
          | none => (e, st)
      else (e, st)
    | .ident _ tagSym _ =>
      match tagSym with
      | some sym =>
        if mapHas st.symbolToComponent sym &&
            !(mapHas st.symbolsWithReferencesOutsideJsx sym) then
          if isTopLevelJsxInComposedComponent .jsxSelfF frames st then
            (e, { st with diagnostics :=
                    st.diagnostics ++ [reportTopLevelJsxInComposedComponent loc] })
          else
            let cd := getCssDataFromCssProp prog attrs loc allShouldBeStatic
            let st := { st with diagnostics := st.diagnostics ++ cd.2 }
            let comp := (mapGet st.symbolToComponent sym).getD ⟨"", "", []⟩
            let styles :=
              match cd.1 with
              | some fs => comp.styles ++ [fs]
              | none => comp.styles
            (rewriteJsxSelf comp.elementName attrs
              (prog.injectStyle (.many styles)), st)
        else (e, st)
      | none => (e, st)
    | _ => (e, st)
  | .jsxElem loc openLoc tag attrs children _closeLoc _closeTag =>
    if pass1 then (e, st)
    else
      match tag with
      | .propAccess _ (.ident _ _ objText) tagName =>
        if objText == styledName then
          if isTopLevelJsxInComposedComponent .jsxElemF frames st then
            (e, { st with diagnostics :=
                    st.diagnostics ++ [reportTopLevelJsxInComposedComponent loc] })
          else
            let elementName := toLowerStr tagName
            let cd := getCssDataFromCssProp prog attrs openLoc allShouldBeStatic
            let st := { st with diagnostics := st.diagnostics ++ cd.2 }
            match cd.1 with
            | some cssData =>
              (rewriteJsxElem elementName attrs children
                (prog.injectStyle (.one cssData)), st)
            | none => (e, st)
        else (e, st)
      | .ident _ tagSym _ =>
        match tagSym with
        | some sym =>
          if mapHas st.symbolToComponent sym &&
              !(mapHas st.symbolsWithReferencesOutsideJsx sym) then
            if isTopLevelJsxInComposedComponent .jsxElemF frames st then
              (e, { st with diagnostics :=
                      st.diagnostics ++ [reportTopLevelJsxInComposedComponent loc] })
            else
              let cd := getCssDataFromCssProp prog attrs openLoc allShouldBeStatic
              let st := { st with diagnostics := st.diagnostics ++ cd.2 }
              let comp := (mapGet st.symbolToComponent sym).getD ⟨"", "", []⟩
              let styles :=
                match cd.1 with
                | some fs => comp.styles ++ [fs]
                | none => comp.styles
              (rewriteJsxElem comp.elementName attrs children
                (prog.injectStyle (.many styles)), st)
          else (e, st)
        | none => (e, st)
      | _ => (e, st)
  | _ => (e, st)

/-! ## `visitNodeAndChildren`

`ts.visitEachChild(visitNode(node), recurse)` — the node is visited,
then the children *of the result* are visited.  The recursion is fueled
(one unit per visited node, so the fuel only needs to cover the number
of nodes), packaged as a structure of visitor functions built by
structural recursion on the fuel so that each call unfolds in constant
time during kernel reduction. -/

structure Visitor where
  vStmts : List Frame → TState → StmtList → Except String (StmtList × TState)
  vStmt : List Frame → TState → Stmt → Except String (Option Stmt × TState)
  vDecls : Nat → List Frame → TState → DeclList → Except String (DeclList × TState)
  vExpr : List Frame → TState → Expr → Except String (Expr × TState)
  vExprs : List Frame → TState → ExprList → Except String (ExprList × TState)
  vAttrs : List Frame → TState → AttrList → Except String (AttrList × TState)

/-- The exhausted visitor: out of fuel everywhere. -/
def failVisitor : Visitor where
  vStmts _ _ _ := .error "out of fuel"
  vStmt _ _ _ := .error "out of fuel"
  vDecls _ _ _ _ := .error "out of fuel"
  vExpr _ _ _ := .error "out of fuel"
  vExprs _ _ _ := .error "out of fuel"
  vAttrs _ _ _ := .error "out of fuel"

/-- One fuel layer: every entry visits its node via `visitNodeStmt` /
`visitNodeExpr` and recurses into the children *of the result* through
`prev`. -/
def stepVisitor (prog : Program) (pass1 allStatic : Bool) (prev : Visitor) :
    Visitor where
  vStmts frames st l :=
    match l with
    | .nil => .ok (.nil, st)
    | .cons s tl => do
      let r ← prev.vStmt frames st s
      let rtl ← prev.vStmts frames r.2 tl
      match r.1 with
      | some s₁ => .ok (.cons s₁ rtl.1, rtl.2)
      | none => .ok (rtl.1, rtl.2)
  vStmt frames st s := do
    let r ← visitNodeStmt prog pass1 allStatic st s
    match r.1 with
    | none => .ok (none, r.2)
    | some s₁ =>
      match s₁ with
      | .varStmt loc exported tags decls => do
        let rd ← prev.vDecls loc frames r.2 decls
        .ok (some (.varStmt loc exported tags rd.1), rd.2)
      | .exprStmt loc tags e => do
        let re ← prev.vExpr (⟨.exprStmtF, loc⟩ :: frames) r.2 e
        .ok (some (.exprStmt loc tags re.1), re.2)
      | .retStmt loc tags oe =>
        match oe with
        | .noneE => .ok (some (.retStmt loc tags .noneE), r.2)
        | .someE e => do
          let re ← prev.vExpr (⟨.returnStmtF, loc⟩ :: frames) r.2 e
          .ok (some (.retStmt loc tags (.someE re.1)), re.2)
  vDecls stmtLoc frames st l :=
    match l with
    | .nil => .ok (.nil, st)
    | .cons (.mk dloc nsym ntext init) tl => do
      let rinit ←
        match init with
        | .noneE => pure (OptExpr.noneE, st)
        | .someE e => do
          let re ← prev.vExpr
            (⟨.varDeclF nsym, dloc⟩ :: ⟨.varStmtF, stmtLoc⟩ :: frames) st e
          pure (OptExpr.someE re.1, re.2)
      let rtl ← prev.vDecls stmtLoc frames rinit.2 tl
      .ok (.cons (.mk dloc nsym ntext rinit.1) rtl.1, rtl.2)
  vExpr frames st e :=
    let r := visitNodeExpr prog pass1 allStatic frames st e
    match r.1 with
    | .ident a b c => .ok (.ident a b c, r.2)
    | .strLit a b => .ok (.strLit a b, r.2)
    | .objLit a b => .ok (.objLit a b, r.2)
    | .call loc callee args => do
      let calleeFrame : Frame := ⟨.callExprF (exprText callee), loc⟩
      let rc ← prev.vExpr (calleeFrame :: frames) r.2 callee
      let ra ← prev.vExprs (calleeFrame :: frames) rc.2 args
      .ok (.call loc rc.1 ra.1, ra.2)
    | .propAccess loc obj name => do
      let ro ← prev.vExpr (⟨.propAccessF, loc⟩ :: frames) r.2 obj
      .ok (.propAccess loc ro.1 name, ro.2)
    | .arrowFn loc body =>
      match body with
      | .exprBody be => do
        let rb ← prev.vExpr (⟨.arrowFnF, loc⟩ :: frames) r.2 be
        .ok (.arrowFn loc (.exprBody rb.1), rb.2)
      | .blockBody bloc stmts => do
        let rb ← prev.vStmts (⟨.blockF, bloc⟩ :: ⟨.arrowFnF, loc⟩ :: frames) r.2 stmts
        .ok (.arrowFn loc (.blockBody bloc rb.1), rb.2)
    | .parenE loc inner => do
      let ri ← prev.vExpr (⟨.parenF, loc⟩ :: frames) r.2 inner
      .ok (.parenE loc ri.1, ri.2)
    | .condE loc c t f => do
      let rc ← prev.vExpr (⟨.condF, loc⟩ :: frames) r.2 c
      let rt ← prev.vExpr (⟨.condF, loc⟩ :: frames) rc.2 t
      let rf ← prev.vExpr (⟨.condF, loc⟩ :: frames) rt.2 f
      .ok (.condE loc rc.1 rt.1 rf.1, rf.2)
    | .jsxSelf loc tag attrs => do
      let rt ← prev.vExpr (⟨.jsxSelfF, loc⟩ :: frames) r.2 tag
      let ra ← prev.vAttrs (⟨.jsxSelfF, loc⟩ :: frames) rt.2 attrs
      .ok (.jsxSelf loc rt.1 ra.1, ra.2)
    | .jsxElem loc openLoc tag attrs children closeLoc closeTag => do
      let rt ← prev.vExpr
        (⟨.jsxOpeningF, openLoc⟩ :: ⟨.jsxElemF, loc⟩ :: frames) r.2 tag
      let ra ← prev.vAttrs
        (⟨.jsxOpeningF, openLoc⟩ :: ⟨.jsxElemF, loc⟩ :: frames) rt.2 attrs
      let rch ← prev.vExprs (⟨.jsxElemF, loc⟩ :: frames) ra.2 children
      let rct ← prev.vExpr
        (⟨.jsxClosingF, closeLoc⟩ :: ⟨.jsxElemF, loc⟩ :: frames) rch.2 closeTag
      .ok (.jsxElem loc openLoc rt.1 ra.1 rch.1 closeLoc rct.1, rct.2)
  vExprs frames st l :=
    match l with
    | .nil => .ok (.nil, st)
    | .cons e tl => do
      let re ← prev.vExpr frames st e
      let rtl ← prev.vExprs frames re.2 tl
      .ok (.cons re.1 rtl.1, rtl.2)
  vAttrs parentFrames st l :=
    match l with
    | .nil => .ok (.nil, st)
    | .cons (.mk aloc name iloc init) tl => do
      let rinit ←
        match init with
        | .noneE => pure (OptExpr.noneE, st)
        | .someE e => do
          let re ← prev.vExpr
            (⟨.jsxExprF, iloc⟩ :: ⟨.jsxAttrF, aloc⟩ :: parentFrames) st e
          pure (OptExpr.someE re.1, re.2)
      let rtl ← prev.vAttrs parentFrames rinit.2 tl
      .ok (.cons (.mk aloc name iloc rinit.1) rtl.1, rtl.2)

def mkVisitor (prog : Program) (pass1 allStatic : Bool) : Nat → Visitor
  | 0 => failVisitor
  | fuel + 1 => stepVisitor prog pass1 allStatic (mkVisitor prog pass1 allStatic fuel)

/-- One whole-file traversal (`visitNodeAndChildren` from the source
file's root; `visitNode` on the `SourceFile` itself matches no branch). -/
def visitSourceFile (fuel : Nat) (prog : Program) (pass1 allStatic : Bool)
    (st : TState) (file : StmtList) : Except String (StmtList × TState) :=
  (mkVisitor prog pass1 allStatic fuel).vStmts [⟨.sourceFileF, 0⟩] st file

/-- `transformer(program, glitz, diagnosticsReporter)` applied to one
`.tsx` file: the `glitz-all-dynamic` bail-out, the first (collection)
pass, the second (rewrite) pass, and — iff
`symbolsWithReferencesOutsideJsx` is non-empty afterwards — one extra
pass over the *first* pass's output.  The result also carries the final
state and the number of passes run. -/
def transformerFull (prog : Program) (fuel : Nat) (file : StmtList) :
    Except String (StmtList × TState × Nat) :=
  if stmtsAny (fun s => hasJSDocTag s "glitz-all-dynamic") file then
    .ok (file, emptyState, 0)
  else
    let allStatic := stmtsAny (fun s => hasJSDocTag s "glitz-all-static") file
    do
      let r1 ← visitSourceFile fuel prog true allStatic emptyState file
      let r2 ← visitSourceFile fuel prog false allStatic r1.2 r1.1
      if r2.2.symbolsWithReferencesOutsideJsx.isEmpty then
        .ok (r2.1, r2.2, 2)
      else do
        let r3 ← visitSourceFile fuel prog false allStatic r2.2 r1.1
        .ok (r3.1, r3.2, 3)

/-- The transformed file alone. -/
def transformer (prog : Program) (fuel : Nat) (file : StmtList) :
    Except String StmtList :=
  (transformerFull prog fuel file).map (fun r => r.1)

/-! ## Lemmas about the style detectors -/

mutual

/-- When `anyValuesAreFunctions` finds nothing, `isEvaluableStyle`'s
object walk accepts. -/
theorem isEvaluableFields_of_anyValues_none :
    ∀ fs : Fields, anyValuesAreFunctions fs = none → isEvaluableFields fs = true
  | .nil, _ => rfl
  | .cons k v tl, h => by
    unfold anyValuesAreFunctions at h
    unfold isEvaluableFields
    cases hv : anyValuesAreFunctionsValue v with
    | some f => rw [hv] at h; exact absurd h (by simp)
    | none =>
      rw [hv] at h
      rw [isEvaluableValue_of_anyValues_none v hv,
        isEvaluableFields_of_anyValues_none tl h]
      rfl

theorem isEvaluableValue_of_anyValues_none :
    ∀ v : Value, anyValuesAreFunctionsValue v = none → isEvaluableValue v = true
  | .str _, _ => rfl
  | .num _, _ => rfl
  | .undef, _ => rfl
  | .funcVal _, h => by simp [anyValuesAreFunctionsValue] at h
  | .arr _, _ => rfl
  | .obj fs, h => by
    unfold anyValuesAreFunctionsValue at h
    exact isEvaluableFields_of_anyValues_none fs h

end

mutual

/-- The source's deep detector agrees exactly with the spec's notion of
a function leaf at any depth (through objects and arrays alike). -/
theorem anyValues_isSome_eq_hasFunctionLeaf :
    ∀ fs : Fields, (anyValuesAreFunctions fs).isSome = hasFunctionLeafFields fs
  | .nil => rfl
  | .cons k v tl => by
    have hv := anyValues_isSome_eq_hasFunctionLeafValue v
    have htl := anyValues_isSome_eq_hasFunctionLeaf tl
    unfold anyValuesAreFunctions hasFunctionLeafFields
    cases h : anyValuesAreFunctionsValue v with
    | some g =>
      rw [h] at hv
      simp [← hv]
    | none =>
      rw [h] at hv
      simp [← hv, htl]

theorem anyValues_isSome_eq_hasFunctionLeafValue :
    ∀ v : Value, (anyValuesAreFunctionsValue v).isSome = hasFunctionLeafValue v
  | .str _ => rfl
  | .num _ => rfl
  | .undef => rfl
  | .funcVal _ => rfl
  | .arr es => by
    unfold anyValuesAreFunctionsValue hasFunctionLeafValue
    exact anyValues_isSome_eq_hasFunctionLeafList es
  | .obj fs => by
    unfold anyValuesAreFunctionsValue hasFunctionLeafValue
    exact anyValues_isSome_eq_hasFunctionLeaf fs

theorem anyValues_isSome_eq_hasFunctionLeafList :
    ∀ es : ValueList, (anyValuesAreFunctionsList es).isSome = hasFunctionLeafList es
  | .nil => rfl
  | .cons v tl => by
    have hv := anyValues_isSome_eq_hasFunctionLeafValue v
    have htl := anyValues_isSome_eq_hasFunctionLeafList tl
    unfold anyValuesAreFunctionsList hasFunctionLeafList
    cases h : anyValuesAreFunctionsValue v with
    | some g =>
      rw [h] at hv
      simp [← hv]
    | none =>
      rw [h] at hv
      simp [← hv, htl]

end

mutual

/-- What `anyValuesAreFunctions` returns is a function value that really
occurs as a leaf of the object. -/
theorem anyValues_some_funcLeaf :
    ∀ (fs : Fields) (f : Value), anyValuesAreFunctions fs = some f →
      (∃ t, f = Value.funcVal t) ∧ funcLeafMemFields f fs = true
  | .nil, f, h => by simp [anyValuesAreFunctions] at h
  | .cons k v tl, f, h => by
    unfold anyValuesAreFunctions at h
    unfold funcLeafMemFields
    cases hv : anyValuesAreFunctionsValue v with
    | some g =>
      rw [hv] at h
      obtain rfl : g = f := by simpa using h
      obtain ⟨ht, hm⟩ := anyValues_some_funcLeafValue v g hv
      exact ⟨ht, by rw [hm]; rfl⟩
    | none =>
      rw [hv] at h
      obtain ⟨ht, hm⟩ := anyValues_some_funcLeaf tl f h
      exact ⟨ht, by rw [hm, Bool.or_true]⟩

theorem anyValues_some_funcLeafValue :
    ∀ (v : Value) (f : Value), anyValuesAreFunctionsValue v = some f →
      (∃ t, f = Value.funcVal t) ∧ funcLeafMemValue f v = true
  | .str _, f, h => by simp [anyValuesAreFunctionsValue] at h
  | .num _, f, h => by simp [anyValuesAreFunctionsValue] at h
  | .undef, f, h => by simp [anyValuesAreFunctionsValue] at h
  | .funcVal t, f, h => by
    unfold anyValuesAreFunctionsValue at h
    obtain rfl : Value.funcVal t = f := by simpa using h
    exact ⟨⟨t, rfl⟩, by simp [funcLeafMemValue]⟩
  | .obj fs, f, h => by
    unfold anyValuesAreFunctionsValue at h
    have := anyValues_some_funcLeaf fs f h
    exact ⟨this.1, by unfold funcLeafMemValue; exact this.2⟩
  | .arr es, f, h => by
    unfold anyValuesAreFunctionsValue at h
    have := anyValues_some_funcLeafList es f h
    exact ⟨this.1, by unfold funcLeafMemValue; exact this.2⟩

theorem anyValues_some_funcLeafList :
    ∀ (es : ValueList) (f : Value), anyValuesAreFunctionsList es = some f →
      (∃ t, f = Value.funcVal t) ∧ funcLeafMemList f es = true
  | .nil, f, h => by simp [anyValuesAreFunctionsList] at h
  | .cons v tl, f, h => by
    unfold anyValuesAreFunctionsList at h
    unfold funcLeafMemList
    cases hv : anyValuesAreFunctionsValue v with
    | some g =>
      rw [hv] at h
      obtain rfl : g = f := by simpa using h
      obtain ⟨ht, hm⟩ := anyValues_some_funcLeafValue v g hv
      exact ⟨ht, by rw [hm]; rfl⟩
    | none =>
      rw [hv] at h
      obtain ⟨ht, hm⟩ := anyValues_some_funcLeafList tl f h
      exact ⟨ht, by rw [hm, Bool.or_true]⟩

end

/-! ## List and map lemmas -/

theorem asEvaluatedStyles_map_append (l : List Fields) (s : Fields) :
    asEvaluatedStyles (l.map StyleEvalResult.style ++ [StyleEvalResult.style s]) = l ++ [s] := by
  induction l with
  | nil => rfl
  | cons hd tl ih => simpa [asEvaluatedStyles] using ih

theorem all_isEvaluableStyle_map_append (l : List Fields) (s : Fields)
    (hl : ∀ f ∈ l, isEvaluableFields f = true) (hs : isEvaluableFields s = true) :
    (l.map StyleEvalResult.style ++ [StyleEvalResult.style s]).all isEvaluableStyle = true := by
  induction l with
  | nil => simpa [isEvaluableStyle] using hs
  | cons hd tl ih =>
    have hhd := hl hd (by simp)
    simp only [List.map_cons, List.cons_append, List.all_cons]
    rw [ih (fun f hf => hl f (by simp [hf]))]
    simpa [isEvaluableStyle] using hhd

theorem mapGet_mapSet_self {α : Type} (m : List (Nat × α)) (k : Nat) (v : α) :
    mapGet (mapSet m k v) k = some v := by
  unfold mapSet
  by_cases h : mapHas m k = true
  · rw [if_pos h]
    induction m with
    | nil => simp [mapHas, mapGet] at h
    | cons hd tl ih =>
      cases hk : (hd.1 == k) with
      | true => simp [mapGet, hk]
      | false =>
        have htl : mapHas tl k = true := by
          unfold mapHas at h
          rwa [mapGet, if_neg (by simp [hk] : ¬(hd.1 == k) = true)] at h
        simpa [mapGet, hk] using ih htl
  · rw [if_neg h]
    rw [Bool.not_eq_true] at h
    induction m with
    | nil => simp [mapGet]
    | cons hd tl ih =>
      cases hk : (hd.1 == k) with
      | true =>
        exfalso
        unfold mapHas at h
        rw [mapGet, if_pos hk] at h
        simp at h
      | false =>
        have htl : mapHas tl k = false := by
          unfold mapHas at h
          rwa [mapGet, if_neg (by simp [hk] : ¬(hd.1 == k) = true)] at h
        simpa [mapGet, hk] using ih htl

/-! ## Concrete scenario inputs

Shared style values.  The `evalStyle` tables of the per-scenario
programs encode the spec's premise that `evaluate` folds the literal
object descriptors to themselves; `evalComponent` and `injectStyle` stay
abstract wherever a scenario never forces them. -/

def redStyle : Fields := .cons "color" (.str "red") .nil

def fsStyle : Fields := .cons "fontSize" (.num 12) .nil

def marginStyle : Fields := .cons "margin" (.num 1) .nil

/-! ### C1: the direct-extraction scenario -/

def c1Prog (ec : Expr → Option StaticShape) (inj : StyleArg → String) : Program :=
  { evalStyle := fun i => if i == 0 then .style redStyle else .style fsStyle
    evalComponent := ec
    injectStyle := inj }

/-- `const Box = styled.div({color:'red'});` -/
def c1DeclBox : Stmt :=
  .varStmt 1 false []
    (.cons (.mk 2 100 "Box"
      (.someE (.call 3 (.propAccess 4 (.ident 5 (some 50) "styled") "div")
        (.cons (.objLit 6 0) .nil)))) .nil)

/-- `<Box css={{fontSize:12}}/>;` — the only other occurrence of `Box`. -/
def c1Usage : Stmt :=
  .exprStmt 10 []
    (.jsxSelf 11 (.ident 12 (some 100) "Box")
      (.cons (.mk 13 "css" 14 (.someE (.objLit 15 1))) .nil))

def c1File : StmtList := .cons c1DeclBox (.cons c1Usage .nil)

/-- The rewritten usage: `<div className={injectStyle([{color:'red'},{fontSize:12}])}/>`. -/
def c1Rewritten (inj : StyleArg → String) : Stmt :=
  .exprStmt 10 []
    (.jsxSelf 0 (.ident 0 none "div")
      (.cons (classNameAttr (inj (.many [redStyle, fsStyle]))) .nil))

/-! ### C2: the composition chain -/

def c2Prog : Program :=
  { evalStyle := fun i =>
      if i == 0 then .style redStyle
      else if i == 1 then .style fsStyle
      else .style marginStyle
    evalComponent := fun _ => none
    injectStyle := fun _ => "a" }

def c2DeclA : Stmt :=
  .varStmt 20 false [] (.cons (.mk 21 100 "A"
    (.someE (.call 22 (.propAccess 23 (.ident 24 (some 50) "styled") "div")
      (.cons (.objLit 25 0) .nil)))) .nil)

def c2DeclB : Stmt :=
  .varStmt 30 false [] (.cons (.mk 31 101 "B"
    (.someE (.call 32 (.ident 33 (some 51) "styled")
      (.cons (.ident 34 (some 100) "A") (.cons (.objLit 35 1) .nil))))) .nil)

def c2DeclC : Stmt :=
  .varStmt 40 false [] (.cons (.mk 41 102 "C"
    (.someE (.call 42 (.ident 43 (some 51) "styled")
      (.cons (.ident 44 (some 101) "B") (.cons (.objLit 45 2) .nil))))) .nil)

def c2File : StmtList := .cons c2DeclA (.cons c2DeclB (.cons c2DeclC .nil))

/-- The registry state once `A` and `B` are registered. -/
def c2StateAB : TState :=
  { emptyState with
    symbolToComponent :=
      [(100, ⟨"A", "div", [redStyle]⟩), (101, ⟨"B", "div", [redStyle, fsStyle]⟩)] }

/-! ### C3: the opaque-factory counterexample -/

/-- `{x: [() => ...]}` — a function leaf nested inside an array. -/
def c3BadStyle : Fields := .cons "x" (.arr (.cons (.funcVal none) .nil)) .nil

def c3Init : Expr := .call 52 (.ident 53 none "createThing") .nil

def c3Prog : Program :=
  { evalStyle := fun _ => .style .nil
    evalComponent := fun e =>
      if e == c3Init then some ⟨"div", [.style c3BadStyle]⟩ else none
    injectStyle := fun _ => "a" }

def c3Stmt : Stmt :=
  .varStmt 50 false [] (.cons (.mk 51 200 "Thing" (.someE c3Init)) .nil)

def c3File : StmtList := .cons c3Stmt .nil

def c3FinalState : TState :=
  { emptyState with symbolToComponent := [(200, ⟨"Thing", "div", [c3BadStyle]⟩)] }

/-! ### C4: the escape-reference counterexample -/

def c4Prog : Program :=
  { evalStyle := fun i => if i == 0 then .style redStyle else .style fsStyle
    evalComponent := fun _ => none
    injectStyle := fun _ => "a" }

def c4DeclBox : Stmt :=
  .varStmt 1 false [] (.cons (.mk 2 100 "Box"
    (.someE (.call 3 (.propAccess 4 (.ident 5 (some 50) "styled") "div")
      (.cons (.objLit 6 0) .nil)))) .nil)

/-- `const A = <Box/>;` — a markup usage textually before the escape
reference. -/
def c4DeclA : Stmt :=
  .varStmt 10 false [] (.cons (.mk 11 101 "A"
    (.someE (.jsxSelf 12 (.ident 13 (some 100) "Box") .nil))) .nil)

/-- `foo(Box);` — the plain-value (outside-JSX) reference. -/
def c4Foo : Stmt :=
  .exprStmt 15 [] (.call 16 (.ident 17 none "foo")
    (.cons (.ident 18 (some 100) "Box") .nil))

def c4File : StmtList := .cons c4DeclBox (.cons c4DeclA (.cons c4Foo .nil))

/-- `A`'s initializer after the first pass rewrote it. -/
def c4DeclARewritten : Stmt :=
  .varStmt 10 false [] (.cons (.mk 11 101 "A"
    (.someE (.jsxSelf 0 (.ident 0 none "div")
      (.cons (classNameAttr "a") .nil)))) .nil)

def c4ExpectedOut : StmtList :=
  .cons c4DeclBox (.cons c4DeclARewritten (.cons c4Foo .nil))

def c4FinalState : TState :=
  { symbolToComponent := [(100, ⟨"Box", "div", [redStyle]⟩)]
    symbolsWithReferencesOutsideJsx :=
      [(100, ⟨⟨"Box", "div", [redStyle]⟩, [16, 16, 16], true⟩)]
    extendedComponentSymbols := []
    diagnostics :=
      [⟨"Component '" ++ "Box" ++
          "' cannot be statically extracted since it's used outside of JSX",
        .info, 16, none⟩] }

/-! ### C5: the parenthesized direct arrow body -/

def c5Jsx : Expr :=
  .jsxSelf 64 (.propAccess 65 (.ident 66 (some 50) "styled") "Div")
    (.cons (.mk 67 "css" 68 (.someE (.objLit 69 1))) .nil)

/-- `const Outer = () => (<styled.Div css={{fontSize:12}}/>);` — the JSX
is the direct arrow body, wrapped in parentheses. -/
def c5DeclOuter : Stmt :=
  .varStmt 60 false [] (.cons (.mk 61 300 "Outer"
    (.someE (.arrowFn 62 (.exprBody (.parenE 63 c5Jsx))))) .nil)

/-- `const Foo = styled(Outer, {margin:1});` — puts `Outer` in
`extendedComponentSymbols`. -/
def c5DeclFoo : Stmt :=
  .varStmt 70 false [] (.cons (.mk 71 301 "Foo"
    (.someE (.call 72 (.ident 73 (some 51) "styled")
      (.cons (.ident 74 (some 300) "Outer") (.cons (.objLit 75 2) .nil))))) .nil)

def c5File : StmtList := .cons c5DeclOuter (.cons c5DeclFoo .nil)

def c5Prog : Program := c2Prog

/-- The ancestor chain of `c5Jsx` during the traversal: paren, arrow,
`Outer`'s declaration, its statement, the source file. -/
def c5JsxFrames : List Frame :=
  [⟨.parenF, 63⟩, ⟨.arrowFnF, 62⟩, ⟨.varDeclF 300, 61⟩, ⟨.varStmtF, 60⟩,
   ⟨.sourceFileF, 0⟩]

def c5DeclOuterRewritten : Stmt :=
  .varStmt 60 false [] (.cons (.mk 61 300 "Outer"
    (.someE (.arrowFn 62 (.exprBody (.parenE 63
      (.jsxSelf 0 (.ident 0 none "div")
        (.cons (classNameAttr "a") .nil))))))) .nil)

def c5ExpectedOut : StmtList := .cons c5DeclOuterRewritten (.cons c5DeclFoo .nil)

def c5FinalState : TState :=
  { emptyState with extendedComponentSymbols := [300] }

/-! ### C6: non-evaluable css prop on a registered binding -/

/-- `{color: () => ...}` with the function's `tsNode` at location 99. -/
def c6FnStyle : Fields := .cons "color" (.funcVal (some 99)) .nil

def c6Prog : Program :=
  { evalStyle := fun i => if i == 3 then .style c6FnStyle else .style redStyle
    evalComponent := fun _ => none
    injectStyle := fun _ => "a" }

def c6DeclBox : Stmt :=
  .varStmt 80 false [] (.cons (.mk 81 400 "Box"
    (.someE (.call 82 (.propAccess 83 (.ident 84 (some 50) "styled") "div")
      (.cons (.objLit 85 0) .nil)))) .nil)

def c6Usage : Stmt :=
  .exprStmt 86 [] (.jsxSelf 87 (.ident 88 (some 400) "Box")
    (.cons (.mk 89 "css" 90 (.someE (.objLit 91 3))) .nil))

def c6File : StmtList := .cons c6DeclBox (.cons c6Usage .nil)

def c6RewrittenUsage : Stmt :=
  .exprStmt 86 []
    (.jsxSelf 0 (.ident 0 none "div") (.cons (classNameAttr "a") .nil))

def c6FinalState : TState :=
  { emptyState with
    symbolToComponent := [(400, ⟨"Box", "div", [redStyle]⟩)]
    diagnostics :=
      [⟨"css prop could not be statically evaluated", .info, 87,
        some ⟨"Functions in style objects requires runtime", 99, .info⟩⟩] }

/-! ### C8: a dynamic-tagged node's rewritten descendant -/

def c8Prog : Program := c4Prog

def c8DeclBox : Stmt :=
  .varStmt 110 false [] (.cons (.mk 111 500 "Box"
    (.someE (.call 112 (.propAccess 113 (.ident 114 (some 50) "styled") "div")
      (.cons (.objLit 115 0) .nil)))) .nil)

/-- `/** @glitz-dynamic */ const App = () => <Box/>;` -/
def c8DeclApp : Stmt :=
  .varStmt 120 false ["glitz-dynamic"] (.cons (.mk 121 501 "App"
    (.someE (.arrowFn 122 (.exprBody
      (.jsxSelf 123 (.ident 124 (some 500) "Box") .nil))))) .nil)

def c8File : StmtList := .cons c8DeclBox (.cons c8DeclApp .nil)

/-- `App` with its descendant markup usage replaced. -/
def c8DeclAppRewritten : Stmt :=
  .varStmt 120 false ["glitz-dynamic"] (.cons (.mk 121 501 "App"
    (.someE (.arrowFn 122 (.exprBody
      (.jsxSelf 0 (.ident 0 none "div")
        (.cons (classNameAttr "a") .nil)))))) .nil)

def c8FinalState : TState :=
  { emptyState with symbolToComponent := [(500, ⟨"Box", "div", [redStyle]⟩)] }

/-! ### C9: an exported (unregistered) parent, registered child -/

def c9Init : Expr :=
  .call 140 (.ident 141 (some 51) "styled")
    (.cons (.ident 142 (some 600) "Base") (.cons (.objLit 143 1) .nil))

def c9Prog : Program :=
  { evalStyle := fun i => if i == 0 then .style redStyle else .style fsStyle
    evalComponent := fun e =>
      if e == c9Init then some ⟨"div", [.style redStyle, .style fsStyle]⟩ else none
    injectStyle := fun _ => "a" }

/-- `export const Base = styled.div({color:'red'});` — never registered. -/
def c9DeclBase : Stmt :=
  .varStmt 130 true [] (.cons (.mk 131 600 "Base"
    (.someE (.call 132 (.propAccess 133 (.ident 134 (some 50) "styled") "div")
      (.cons (.objLit 135 0) .nil)))) .nil)

/-- `const Child = styled(Base, {fontSize:12});` -/
def c9DeclChild : Stmt :=
  .varStmt 138 false [] (.cons (.mk 139 601 "Child" (.someE c9Init)) .nil)

def c9File : StmtList := .cons c9DeclBase (.cons c9DeclChild .nil)

def c9FinalState : TState :=
  { emptyState with
    symbolToComponent := [(601, ⟨"Child", "div", [redStyle, fsStyle]⟩)]
    extendedComponentSymbols := [600] }

/-! ### C10: an exported direct-form declaration -/

def c10File : StmtList :=
  .cons (.varStmt 150 true [] (.cons (.mk 151 700 "Box"
    (.someE (.call 152 (.propAccess 153 (.ident 154 (some 50) "styled") "div")
      (.cons (.objLit 155 0) .nil)))) .nil)) .nil

/-! ## The claims -/

/-- C1: for a file `const Box = styled.div({color:'red'}); <Box css={{fontSize:12}}/>;`
with no other reference to `Box`, the transform removes the declaration
statement and replaces the usage with `<div className="<hash>"/>` where
the hash is exactly `injectStyle` applied to the two-element stack
`[{color:'red'},{fontSize:12}]` in that order — for every behaviour of
the style engine and of the generic component evaluator (`c1Prog`'s
`evalStyle` table encodes the evaluator folding the two literals to
themselves). -/
theorem claim1_direct_extraction_scenario
    (ec : Expr → Option StaticShape) (inj : StyleArg → String) :
    transformer (c1Prog ec inj) 32 c1File = .ok (.cons (c1Rewritten inj) .nil) := rfl

/-- C3 counterexample: `c3BadStyle = {x: [function]}` has a function
leaf inside an array, yet through the opaque-factory (Pascal-case) path
the declaration `const Thing = createThing()` IS registered with that
descriptor (`isEvaluableStyle` does not descend into arrays) and the
statement is removed from the output — refuting the claim that any
function leaf at any depth, including inside arrays, prevents
registration and rewriting. -/
theorem claim3_counterexample_array_function_registered :
    hasFunctionLeafFields c3BadStyle = true ∧
    transformerFull c3Prog 32 c3File = .ok (.nil, c3FinalState, 2) ∧
    mapGet c3FinalState.symbolToComponent 200 = some ⟨"Thing", "div", [c3BadStyle]⟩ :=
  ⟨rfl, rfl, rfl⟩

/-- C4 counterexample: in
`const Box = styled.div({color:'red'}); const A = <Box/>; foo(Box);`
the binding `Box` ends up recorded in `symbolsWithReferencesOutsideJsx`
(with `foo(Box)` as its reference site), yet the markup usage `<Box/>`
was rewritten to `<div className="a"/>` during the first pass — before
the escape reference was recorded — and stays rewritten in the output,
refuting "no markup usage of that binding is rewritten in any pass".
(The declaration is kept and exactly one diagnostic is emitted, as the
claim also states.) -/
theorem claim4_counterexample_first_pass_rewrite :
    transformerFull c4Prog 32 c4File = .ok (c4ExpectedOut, c4FinalState, 3) ∧
    mapHas c4FinalState.symbolsWithReferencesOutsideJsx 100 = true ∧
    c4DeclARewritten ≠ c4DeclA ∧
    c4FinalState.diagnostics.length = 1 :=
  ⟨rfl, rfl, by decide, rfl⟩

/-- C5: `const Outer = () => (<styled.Div css={{fontSize:12}}/>); const
Foo = styled(Outer, {margin:1});` — `Outer` is in
`extendedComponentSymbols` and the markup is its direct arrow body,
wrapped only in parentheses; the guard
`isTopLevelJsxInComposedComponent` nevertheless answers `false` (its
paren-walking loop tests the JSX node itself instead of its parent, so
it never ascends) and the usage IS rewritten, where the claim (and the
loop's evident intent) requires it never to be. -/
theorem claim5_paren_direct_body_rewritten :
    transformerFull c5Prog 32 c5File = .ok (c5ExpectedOut, c5FinalState, 2) ∧
    c5FinalState.extendedComponentSymbols = [300] ∧
    isTopLevelJsxInComposedComponent .jsxSelfF c5JsxFrames c5FinalState = false ∧
    c5DeclOuterRewritten ≠ c5DeclOuter :=
  ⟨rfl, rfl, rfl, by decide⟩

/-- C6 counterexample: `Box` is registered and
`<Box css={{color: fn}}/>` carries a non-evaluable css descriptor, yet
the usage is NOT left as authored: it is rewritten to
`<div className="a"/>` with the css attribute stripped and a className
appended (built from the base styles only), alongside the info
diagnostic — refuting "the rewrite of that usage is skipped (the node is
left exactly as authored)". -/
theorem claim6_counterexample_registered_usage_rewritten :
    hasFunctionLeafFields c6FnStyle = true ∧
    transformerFull c6Prog 32 c6File = .ok (.cons c6RewrittenUsage .nil, c6FinalState, 2) ∧
    c6RewrittenUsage ≠ c6Usage ∧
    c6FinalState.diagnostics =
      [⟨"css prop could not be statically evaluated", .info, 87,
        some ⟨"Functions in style objects requires runtime", 99, .info⟩⟩] :=
  ⟨rfl, rfl, by decide, rfl⟩

/-- C8 counterexample: `App`'s statement carries the `glitz-dynamic`
directive, yet its descendant markup usage `<Box/>` is replaced by
`<div className="a"/>` in the output (children of the exempted node are
still visited), refuting "the entire subtree rooted at that node is
exempt from all rewriting". -/
theorem claim8_counterexample_descendant_rewritten :
    hasJSDocTag c8DeclApp "glitz-dynamic" = true ∧
    transformerFull c8Prog 32 c8File = .ok (.cons c8DeclAppRewritten .nil, c8FinalState, 2) ∧
    c8DeclAppRewritten ≠ c8DeclApp :=
  ⟨rfl, rfl, by decide⟩

/-- C9 counterexample: `export const Base = styled.div({color:'red'});`
is never registered (the export guard), so the extension declaration
`const Child = styled(Base, {fontSize:12})` finds no parent in
`symbolToComponent` — yet `Child` IS registered (through the
Pascal-case generic-evaluation fallback, whose `evalComponent` oracle
resolves the initializer the way the real evaluator would) and its
declaration is removed from the output, refuting "if the parent is not
yet registered, the child declaration is not registered and is left
untouched". -/
theorem claim9_counterexample_fallback_registration :
    transformerFull c9Prog 32 c9File = .ok (.cons c9DeclBase .nil, c9FinalState, 2) ∧
    mapGet c9FinalState.symbolToComponent 600 = none ∧
    mapGet c9FinalState.symbolToComponent 601 = some ⟨"Child", "div", [redStyle, fsStyle]⟩ :=
  ⟨rfl, rfl, rfl⟩

/-- C10: a single-declaration variable statement with the `export`
modifier is never registered and never removed or rewritten: `visitNode`
returns it unchanged with the registries untouched in every pass and
under every state, and the whole transform maps a file holding an
exported direct-form declaration (with an evaluable object-literal
descriptor) to itself, for every program oracle. -/
theorem claim10_exported_declaration_untouched :
    (∀ (prog : Program) (p1 aS : Bool) (st : TState) (loc : Nat)
       (tags : List String) (decls : DeclList),
      visitNodeStmt prog p1 aS st (.varStmt loc true tags decls) =
        .ok (some (.varStmt loc true tags decls), st)) ∧
    (∀ prog : Program, transformerFull prog 32 c10File = .ok (c10File, emptyState, 2)) := by
  constructor
  · intro prog p1 aS st loc tags decls
    by_cases h : hasJSDocTag (.varStmt loc true tags decls) "glitz-dynamic" = true
    · simp [visitNodeStmt, h]
    · rw [Bool.not_eq_true] at h
      simp [visitNodeStmt, h]
  · intro prog
    rfl

/-! ## General step lemmas used by the claims -/

/-- C2: for every extension declaration `N = styled(P, {...})` whose
parent binding `P` is registered and whose child descriptor folds
without function leaves, the registered component is exactly
`⟨N, parent.elementName, parent.styles ++ [child]⟩` — the parent's
stack with the evaluated child appended, the element name inherited —
and the declaration node is returned (kept) by the first pass.  The
witness instantiates this on the chain `A → B = styled(A, s1) → C =
styled(B, s2)` and additionally runs the whole first pass on that
chain, showing `C`'s registered stack is `[s0, s1, s2]` with `A`'s
element name. -/
theorem claim2_extension_stack_append (prog : Program) (allStatic : Bool)
    (st : TState) (loc dloc cloc iloc ploc oloc olId psym nameSym : Nat)
    (isym : Option Nat) (nameText pText : String)
    (parent : StaticStyledComponent) (s : Fields)
    (hpar : mapGet st.symbolToComponent psym = some parent)
    (heval : prog.evalStyle olId = .style s)
    (hfn : anyValuesAreFunctions s = none)
    (hps : ∀ f ∈ parent.styles, isEvaluableFields f = true) :
    visitNodeStmt prog true allStatic st
      (.varStmt loc false [] (.cons (.mk dloc nameSym nameText
        (.someE (.call cloc (.ident iloc isym styledName)
          (.cons (.ident ploc (some psym) pText) (.cons (.objLit oloc olId) .nil))))) .nil))
    = .ok (some (.varStmt loc false [] (.cons (.mk dloc nameSym nameText
        (.someE (.call cloc (.ident iloc isym styledName)
          (.cons (.ident ploc (some psym) pText) (.cons (.objLit oloc olId) .nil))))) .nil)),
        { st with symbolToComponent := (mapSet st.symbolToComponent nameSym
            (StaticStyledComponent.mk nameText parent.elementName (parent.styles ++ [s]))) }) := by
  have hev : isEvaluableFields s = true := isEvaluableFields_of_anyValues_none s hfn
  have hall := all_isEvaluableStyle_map_append parent.styles s hps hev
  simp only [visitNodeStmt, hasJSDocTag, List.contains, List.elem, Bool.false_eq_true,
    if_false, Bool.not_true, directFormBranch, extensionFormBranch, getCssDataParent,
    heval, hfn, hpar, hall, asEvaluatedStyles_map_append, if_true, beq_self_eq_true,
    bind, Except.bind]

/-- A function leaf anywhere in the evaluated style makes `getCssData`
return `RequiresRuntime`, locating the function's `tsNode` (fallback:
the given node), and the function really is a leaf of the style. -/
theorem getCssData_rr_of_function_leaf (prog : Program) (olId nodeLoc : Nat)
    (s : Fields) (heval : prog.evalStyle olId = .style s)
    (hleaf : hasFunctionLeafFields s = true) :
    ∃ t, anyValuesAreFunctions s = some (.funcVal t) ∧
      getCssData prog olId nodeLoc =
        .rr ⟨"Functions in style objects requires runtime",
             funcTsNodeOr (.funcVal t) nodeLoc⟩ ∧
      funcLeafMemFields (.funcVal t) s = true := by
  have h1 := anyValues_isSome_eq_hasFunctionLeaf s
  rw [hleaf] at h1
  obtain ⟨f, hf⟩ := Option.isSome_iff_exists.mp h1
  obtain ⟨⟨t, rfl⟩, hm⟩ := anyValues_some_funcLeaf s f hf
  exact ⟨t, hf, by simp [getCssData, heval, hf], hm⟩

/-- A direct-form declaration whose descriptor has a function leaf is
not registered: the node comes back unchanged and exactly one
diagnostic (error under a static directive, info otherwise) is
appended, pointing at the function's own node when it has one. -/
theorem visitNodeStmt_direct_function_leaf_not_registered (prog : Program)
    (aS : Bool) (st : TState) (loc dloc cloc paLoc iloc oloc olId nameSym : Nat)
    (isym : Option Nat) (nameText elementName : String) (s : Fields)
    (heval : prog.evalStyle olId = .style s)
    (hleaf : hasFunctionLeafFields s = true)
    (hec : prog.evalComponent (.call cloc
      (.propAccess paLoc (.ident iloc isym styledName) elementName)
      (.cons (.objLit oloc olId) .nil)) = none) :
    ∃ t, anyValuesAreFunctions s = some (.funcVal t) ∧
      visitNodeStmt prog true aS st
        (.varStmt loc false [] (.cons (.mk dloc nameSym nameText
          (.someE (.call cloc (.propAccess paLoc (.ident iloc isym styledName) elementName)
            (.cons (.objLit oloc olId) .nil)))) .nil))
      = .ok (some (.varStmt loc false [] (.cons (.mk dloc nameSym nameText
          (.someE (.call cloc (.propAccess paLoc (.ident iloc isym styledName) elementName)
            (.cons (.objLit oloc olId) .nil)))) .nil)),
        { st with diagnostics := (st.diagnostics ++
            (if aS then
              reportRequiresRuntimeResultWhenShouldBeStatic
                [⟨"Functions in style objects requires runtime",
                  funcTsNodeOr (.funcVal t) loc⟩] loc
            else
              reportRequiresRuntimeResult
                "Styled component could not be statically evaluated" .info
                [⟨"Functions in style objects requires runtime",
                  funcTsNodeOr (.funcVal t) loc⟩] loc)) }) := by
  obtain ⟨t, hf, hcss, hm⟩ := getCssData_rr_of_function_leaf prog olId loc s heval hleaf
  refine ⟨t, hf, ?_⟩
  simp only [visitNodeStmt, hasJSDocTag, List.contains, List.elem, Bool.false_eq_true,
    if_false, Bool.not_true, directFormBranch, extensionFormBranch,
    pascalCaseHeuristicBranch, hcss, hec, bind, Except.bind, ite_self,
    beq_self_eq_true, if_true, isEvaluableStyle, rrOf, Bool.false_or]

/-- A self-closing markup usage of a binding present in
`symbolsWithReferencesOutsideJsx` is returned unchanged, in every pass,
with the state untouched. -/
theorem visitNodeExpr_jsxSelf_outside_ref_unchanged (prog : Program)
    (p1 aS : Bool) (frames : List Frame) (st : TState) (loc iloc sym : Nat)
    (text : String) (attrs : AttrList)
    (h : mapHas st.symbolsWithReferencesOutsideJsx sym = true) :
    visitNodeExpr prog p1 aS frames st (.jsxSelf loc (.ident iloc (some sym) text) attrs) =
      (.jsxSelf loc (.ident iloc (some sym) text) attrs, st) := by
  simp [visitNodeExpr, recordExtendedComponent, h]

/-- Same for a `JsxElement` usage. -/
theorem visitNodeExpr_jsxElem_outside_ref_unchanged (prog : Program)
    (p1 aS : Bool) (frames : List Frame) (st : TState)
    (loc oloc cloc iloc sym : Nat) (text : String)
    (attrs : AttrList) (children : ExprList) (ctag : Expr)
    (h : mapHas st.symbolsWithReferencesOutsideJsx sym = true) :
    visitNodeExpr prog p1 aS frames st
      (.jsxElem loc oloc (.ident iloc (some sym) text) attrs children cloc ctag) =
      (.jsxElem loc oloc (.ident iloc (some sym) text) attrs children cloc ctag, st) := by
  simp [visitNodeExpr, recordExtendedComponent, h]

/-- `replaceComponentDeclarationNode` on a binding with outside-JSX
references keeps the declaration; when not yet reported it emits one
diagnostic per recorded reference site and latches `hasBeenReported`,
and afterwards it emits nothing. -/
theorem replaceComponentDeclarationNode_outside_ref (sym : Nat) (name : String)
    (node : Stmt) (st : TState) (sbs : Bool) (usage : OutsideJsxUsage)
    (husage : mapGet st.symbolsWithReferencesOutsideJsx sym = some usage) :
    (replaceComponentDeclarationNode sym name node st sbs).1 = some node ∧
    (usage.hasBeenReported = true →
      (replaceComponentDeclarationNode sym name node st sbs).2 = st) ∧
    (usage.hasBeenReported = false →
      (replaceComponentDeclarationNode sym name node st sbs).2 =
        { st with
          symbolsWithReferencesOutsideJsx :=
            (mapSet st.symbolsWithReferencesOutsideJsx sym
              { usage with hasBeenReported := true })
          diagnostics := (st.diagnostics ++ usage.references.map (fun refLoc =>
            ⟨"Component '" ++ name ++
              "' cannot be statically extracted since it's used outside of JSX",
             if sbs then Severity.error else Severity.info, refLoc, none⟩)) }) := by
  refine ⟨?_, ?_, ?_⟩
  · cases hrep : usage.hasBeenReported <;>
      simp [replaceComponentDeclarationNode, husage, hrep]
  · intro hrep
    simp [replaceComponentDeclarationNode, husage, hrep]
  · intro hrep
    simp [replaceComponentDeclarationNode, husage, hrep]

/-- A `styled.<Tag>` self-closing usage whose css prop does not fold is
left exactly as authored, with one diagnostic whose severity is graded
only by the file-level static directive. -/
theorem visitNodeExpr_styledTag_css_rr_skipped (prog : Program) (aS : Bool)
    (frames : List Frame) (st : TState)
    (loc paLoc iloc aloc ailoc oloc olId : Nat) (isym : Option Nat)
    (tagName anm : String) (attrs : AttrList) (r : RequiresRuntimeResult)
    (hfind : findCssAttr attrs = some (.mk aloc anm ailoc (.someE (.objLit oloc olId))))
    (heval : prog.evalStyle olId = .rr r)
    (hTop : isTopLevelJsxInComposedComponent .jsxSelfF frames st = false) :
    visitNodeExpr prog false aS frames st
      (.jsxSelf loc (.propAccess paLoc (.ident iloc isym styledName) tagName) attrs) =
      (.jsxSelf loc (.propAccess paLoc (.ident iloc isym styledName) tagName) attrs,
       { st with diagnostics := (st.diagnostics ++
          (if aS then reportRequiresRuntimeResultWhenShouldBeStatic [r] loc
           else reportRequiresRuntimeResult
             "css prop could not be statically evaluated" .info [r] loc)) }) := by
  cases aS <;>
    simp [visitNodeExpr, recordExtendedComponent, hTop, getCssDataFromCssProp,
      hfind, getCssData, heval, isEvaluableStyle, rrOf]

/-- A registered-binding usage whose css prop does not fold is *still*
rewritten, with the base styles only and the css attribute stripped,
next to the same diagnostic. -/
theorem visitNodeExpr_registered_css_rr_rewritten (prog : Program) (aS : Bool)
    (frames : List Frame) (st : TState) (loc iloc sym aloc ailoc oloc olId : Nat)
    (text anm : String) (attrs : AttrList) (r : RequiresRuntimeResult)
    (comp : StaticStyledComponent)
    (hcomp : mapGet st.symbolToComponent sym = some comp)
    (hout : mapHas st.symbolsWithReferencesOutsideJsx sym = false)
    (hfind : findCssAttr attrs = some (.mk aloc anm ailoc (.someE (.objLit oloc olId))))
    (heval : prog.evalStyle olId = .rr r)
    (hTop : isTopLevelJsxInComposedComponent .jsxSelfF frames st = false) :
    visitNodeExpr prog false aS frames st
      (.jsxSelf loc (.ident iloc (some sym) text) attrs) =
      (rewriteJsxSelf comp.elementName attrs (prog.injectStyle (.many comp.styles)),
       { st with diagnostics := (st.diagnostics ++
          (if aS then reportRequiresRuntimeResultWhenShouldBeStatic [r] loc
           else reportRequiresRuntimeResult
             "css prop could not be statically evaluated" .info [r] loc)) }) := by
  have hhas : mapHas st.symbolToComponent sym = true := by
    simp [mapHas, hcomp]
  cases aS <;>
    simp [visitNodeExpr, recordOutsideJsxReference, recordExtendedComponent,
      hhas, hout, hTop, getCssDataFromCssProp, hfind, getCssData, heval,
      isEvaluableStyle, rrOf, hcomp]

/-! ## Remaining claim theorems and witnesses -/

/-- C2 witness: the concrete chain `A = styled.div(s0); B = styled(A, s1);
C = styled(B, s2)` — the first pass registers `C` with stack
`[s0, s1, s2]` and element name `div` inherited from `A`, and the
registration step applied at `C`'s declaration (with `A` and `B`
already registered) is an instance of the claim's theorem. -/
theorem claim2_witness :
    (∃ r, visitSourceFile 32 c2Prog true false emptyState c2File = .ok r ∧
      mapGet r.2.symbolToComponent 102 =
        some ⟨"C", "div", [redStyle, fsStyle, marginStyle]⟩) ∧
    visitNodeStmt c2Prog true false c2StateAB c2DeclC =
      .ok (some c2DeclC,
        { c2StateAB with symbolToComponent := (mapSet c2StateAB.symbolToComponent 102
            (StaticStyledComponent.mk "C" "div" [redStyle, fsStyle, marginStyle])) }) := by
  constructor
  · exact ⟨_, rfl, rfl⟩
  · exact claim2_extension_stack_append c2Prog false c2StateAB 40 41 42 43 44 45 2 101 102
      (some 51) "C" "B" ⟨"B", "div", [redStyle, fsStyle]⟩ marginStyle rfl rfl rfl
      (by intro f hf; simp at hf; rcases hf with rfl | rfl <;> rfl)

/-- C3 (amended): the source's deep detector `anyValuesAreFunctions`
finds a function exactly when the spec's notion (a function leaf at any
depth, through nested objects AND arrays) holds; whenever the evaluated
style has such a leaf, `getCssData` classifies the descriptor
`RequiresRuntime`, locating the diagnostic at the function's own node
(falling back to the declaration node), and a direct-form declaration
with such a descriptor is not registered, is left unchanged, and emits
one graded diagnostic.  (The opaque-factory path, checked only by the
array-skipping `isEvaluableStyle`, is the exception the counterexample
exhibits.) -/
theorem claim3_function_leaf_classification :
    (∀ fs : Fields, (anyValuesAreFunctions fs).isSome = hasFunctionLeafFields fs) ∧
    (∀ (prog : Program) (olId nodeLoc : Nat) (s : Fields),
      prog.evalStyle olId = .style s → hasFunctionLeafFields s = true →
      ∃ t, anyValuesAreFunctions s = some (.funcVal t) ∧
        getCssData prog olId nodeLoc =
          .rr ⟨"Functions in style objects requires runtime",
               funcTsNodeOr (.funcVal t) nodeLoc⟩ ∧
        funcLeafMemFields (.funcVal t) s = true) ∧
    (∀ (prog : Program) (aS : Bool) (st : TState)
       (loc dloc cloc paLoc iloc oloc olId nameSym : Nat) (isym : Option Nat)
       (nameText elementName : String) (s : Fields),
      prog.evalStyle olId = .style s → hasFunctionLeafFields s = true →
      prog.evalComponent (.call cloc
        (.propAccess paLoc (.ident iloc isym styledName) elementName)
        (.cons (.objLit oloc olId) .nil)) = none →
      ∃ t, anyValuesAreFunctions s = some (.funcVal t) ∧
        visitNodeStmt prog true aS st
          (.varStmt loc false [] (.cons (.mk dloc nameSym nameText
            (.someE (.call cloc (.propAccess paLoc (.ident iloc isym styledName) elementName)
              (.cons (.objLit oloc olId) .nil)))) .nil))
        = .ok (some (.varStmt loc false [] (.cons (.mk dloc nameSym nameText
            (.someE (.call cloc (.propAccess paLoc (.ident iloc isym styledName) elementName)
              (.cons (.objLit oloc olId) .nil)))) .nil)),
          { st with diagnostics := (st.diagnostics ++
              (if aS then
                reportRequiresRuntimeResultWhenShouldBeStatic
                  [⟨"Functions in style objects requires runtime",
                    funcTsNodeOr (.funcVal t) loc⟩] loc
              else
                reportRequiresRuntimeResult
                  "Styled component could not be statically evaluated" .info
                  [⟨"Functions in style objects requires runtime",
                    funcTsNodeOr (.funcVal t) loc⟩] loc)) })) :=
  ⟨anyValues_isSome_eq_hasFunctionLeaf,
   fun prog olId nodeLoc s heval hleaf =>
     getCssData_rr_of_function_leaf prog olId nodeLoc s heval hleaf,
   fun prog aS st loc dloc cloc paLoc iloc oloc olId nameSym isym nameText
       elementName s heval hleaf hec =>
     visitNodeStmt_direct_function_leaf_not_registered prog aS st loc dloc cloc
       paLoc iloc oloc olId nameSym isym nameText elementName s heval hleaf hec⟩

/-- C4 (amended): while a binding is recorded in
`symbolsWithReferencesOutsideJsx`, no markup usage of it (self-closing
or element) is rewritten — `visitNode` returns the node and state
untouched — and `replaceComponentDeclarationNode` keeps its
declaration, emits one diagnostic per recorded reference site exactly
once (latching `hasBeenReported`), and emits nothing once the latch is
set.  (The counterexample shows the recording can postdate a first-pass
rewrite of an earlier self-closing usage.) -/
theorem claim4_escape_reference_blocks :
    (∀ (prog : Program) (p1 aS : Bool) (frames : List Frame) (st : TState)
       (loc iloc sym : Nat) (text : String) (attrs : AttrList),
      mapHas st.symbolsWithReferencesOutsideJsx sym = true →
      visitNodeExpr prog p1 aS frames st
        (.jsxSelf loc (.ident iloc (some sym) text) attrs) =
        (.jsxSelf loc (.ident iloc (some sym) text) attrs, st)) ∧
    (∀ (prog : Program) (p1 aS : Bool) (frames : List Frame) (st : TState)
       (loc oloc cloc iloc sym : Nat) (text : String)
       (attrs : AttrList) (children : ExprList) (ctag : Expr),
      mapHas st.symbolsWithReferencesOutsideJsx sym = true →
      visitNodeExpr prog p1 aS frames st
        (.jsxElem loc oloc (.ident iloc (some sym) text) attrs children cloc ctag) =
        (.jsxElem loc oloc (.ident iloc (some sym) text) attrs children cloc ctag, st)) ∧
    (∀ (sym : Nat) (name : String) (node : Stmt) (st : TState) (sbs : Bool)
       (usage : OutsideJsxUsage),
      mapGet st.symbolsWithReferencesOutsideJsx sym = some usage →
      (replaceComponentDeclarationNode sym name node st sbs).1 = some node ∧
      (usage.hasBeenReported = true →
        (replaceComponentDeclarationNode sym name node st sbs).2 = st) ∧
      (usage.hasBeenReported = false →
        (replaceComponentDeclarationNode sym name node st sbs).2 =
          { st with
            symbolsWithReferencesOutsideJsx :=
              (mapSet st.symbolsWithReferencesOutsideJsx sym
                { usage with hasBeenReported := true })
            diagnostics := (st.diagnostics ++ usage.references.map (fun refLoc =>
              ⟨"Component '" ++ name ++
                "' cannot be statically extracted since it's used outside of JSX",
               if sbs then Severity.error else Severity.info, refLoc, none⟩)) })) :=
  ⟨fun prog p1 aS frames st loc iloc sym text attrs h =>
     visitNodeExpr_jsxSelf_outside_ref_unchanged prog p1 aS frames st loc iloc
       sym text attrs h,
   fun prog p1 aS frames st loc oloc cloc iloc sym text attrs children ctag h =>
     visitNodeExpr_jsxElem_outside_ref_unchanged prog p1 aS frames st loc oloc
       cloc iloc sym text attrs children ctag h,
   fun sym name node st sbs usage husage =>
     replaceComponentDeclarationNode_outside_ref sym name node st sbs usage husage⟩

/-- C6 (amended): for a direct `styled.<Tag>` usage a non-evaluable css
descriptor skips the rewrite — the node is returned exactly as authored
— with one diagnostic, at error severity iff the file-level all-static
directive is set (declaration-level directives do not reach css-prop
grading); for a registered-binding usage the same non-evaluable css
descriptor still produces a rewrite carrying the base styles only, the
css attribute stripped, next to the same diagnostic. -/
theorem claim6_css_prop_fallback :
    (∀ (prog : Program) (aS : Bool) (frames : List Frame) (st : TState)
       (loc paLoc iloc aloc ailoc oloc olId : Nat) (isym : Option Nat)
       (tagName anm : String) (attrs : AttrList) (r : RequiresRuntimeResult),
      findCssAttr attrs = some (.mk aloc anm ailoc (.someE (.objLit oloc olId))) →
      prog.evalStyle olId = .rr r →
      isTopLevelJsxInComposedComponent .jsxSelfF frames st = false →
      visitNodeExpr prog false aS frames st
        (.jsxSelf loc (.propAccess paLoc (.ident iloc isym styledName) tagName) attrs) =
        (.jsxSelf loc (.propAccess paLoc (.ident iloc isym styledName) tagName) attrs,
         { st with diagnostics := (st.diagnostics ++
            (if aS then reportRequiresRuntimeResultWhenShouldBeStatic [r] loc
             else reportRequiresRuntimeResult
               "css prop could not be statically evaluated" .info [r] loc)) })) ∧
    (∀ (prog : Program) (aS : Bool) (frames : List Frame) (st : TState)
       (loc iloc sym aloc ailoc oloc olId : Nat) (text anm : String)
       (attrs : AttrList) (r : RequiresRuntimeResult) (comp : StaticStyledComponent),
      mapGet st.symbolToComponent sym = some comp →
      mapHas st.symbolsWithReferencesOutsideJsx sym = false →
      findCssAttr attrs = some (.mk aloc anm ailoc (.someE (.objLit oloc olId))) →
      prog.evalStyle olId = .rr r →
      isTopLevelJsxInComposedComponent .jsxSelfF frames st = false →
      visitNodeExpr prog false aS frames st
        (.jsxSelf loc (.ident iloc (some sym) text) attrs) =
        (rewriteJsxSelf comp.elementName attrs (prog.injectStyle (.many comp.styles)),
         { st with diagnostics := (st.diagnostics ++
            (if aS then reportRequiresRuntimeResultWhenShouldBeStatic [r] loc
             else reportRequiresRuntimeResult
               "css prop could not be statically evaluated" .info [r] loc)) })) :=
  ⟨fun prog aS frames st loc paLoc iloc aloc ailoc oloc olId isym tagName anm
       attrs r hfind heval hTop =>
     visitNodeExpr_styledTag_css_rr_skipped prog aS frames st loc paLoc iloc
       aloc ailoc oloc olId isym tagName anm attrs r hfind heval hTop,
   fun prog aS frames st loc iloc sym aloc ailoc oloc olId text anm attrs r
       comp hcomp hout hfind heval hTop =>
     visitNodeExpr_registered_css_rr_rewritten prog aS frames st loc iloc sym
       aloc ailoc oloc olId text anm attrs r comp hcomp hout hfind heval hTop⟩

/-- C7: once the file-level all-dynamic bail-out does not fire, a
successful transform always decomposes into the mandatory first
(collection) and second (rewrite) passes plus at most one extra pass:
the pass count is at most 3, and it is 3 — with the third pass being
the identical `visitSourceFile` call (rewrite flags, applied to the
first pass's output) — exactly when `symbolsWithReferencesOutsideJsx`
is non-empty after the second pass. -/
theorem claim7_bounded_passes (prog : Program) (fuel : Nat) (file : StmtList)
    (out : StmtList) (st : TState) (n : Nat)
    (hdyn : stmtsAny (fun s => hasJSDocTag s "glitz-all-dynamic") file = false)
    (h : transformerFull prog fuel file = .ok (out, st, n)) :
    n ≤ 3 ∧
    ∃ r1 r2,
      visitSourceFile fuel prog true
        (stmtsAny (fun s => hasJSDocTag s "glitz-all-static") file) emptyState file = .ok r1 ∧
      visitSourceFile fuel prog false
        (stmtsAny (fun s => hasJSDocTag s "glitz-all-static") file) r1.2 r1.1 = .ok r2 ∧
      ((r2.2.symbolsWithReferencesOutsideJsx.isEmpty = true ∧ n = 2 ∧ out = r2.1 ∧ st = r2.2) ∨
       (r2.2.symbolsWithReferencesOutsideJsx.isEmpty = false ∧ n = 3 ∧
         visitSourceFile fuel prog false
           (stmtsAny (fun s => hasJSDocTag s "glitz-all-static") file) r2.2 r1.1 = .ok (out, st))) := by
  unfold transformerFull at h
  rw [hdyn] at h
  simp only [Bool.false_eq_true, if_false] at h
  cases h1 : visitSourceFile fuel prog true
      (stmtsAny (fun s => hasJSDocTag s "glitz-all-static") file) emptyState file with
  | error e =>
    rw [h1] at h
    simp [bind, Except.bind] at h
  | ok r1 =>
    rw [h1] at h
    simp only [bind, Except.bind] at h
    cases h2 : visitSourceFile fuel prog false
        (stmtsAny (fun s => hasJSDocTag s "glitz-all-static") file) r1.2 r1.1 with
    | error e =>
      rw [h2] at h
      simp at h
    | ok r2 =>
      rw [h2] at h
      simp only [] at h
      by_cases hemp : r2.2.symbolsWithReferencesOutsideJsx.isEmpty = true
      · rw [if_pos hemp] at h
        obtain ⟨ho, hs, hn⟩ : r2.1 = out ∧ r2.2 = st ∧ 2 = n := by
          injection h with h'
          injection h' with a b
          injection b with c d
          exact ⟨a, c, d⟩
        subst hn
        exact ⟨by omega, r1, r2, by simp [h1], by simp [h2],
          Or.inl ⟨hemp, rfl, ho.symm, hs.symm⟩⟩
      · rw [if_neg hemp] at h
        rw [Bool.not_eq_true] at hemp
        cases h3 : visitSourceFile fuel prog false
            (stmtsAny (fun s => hasJSDocTag s "glitz-all-static") file) r2.2 r1.1 with
        | error e =>
          rw [h3] at h
          simp [bind, Except.bind] at h
        | ok r3 =>
          rw [h3] at h
          simp only [bind, Except.bind] at h
          obtain ⟨ho, hs, hn⟩ : r3.1 = out ∧ r3.2 = st ∧ 3 = n := by
            injection h with h'
            injection h' with a b
            injection b with c d
            exact ⟨a, c, d⟩
          subst hn
          refine ⟨by omega, r1, r2, by simp [h1], by simp [h2],
            Or.inr ⟨hemp, rfl, ?_⟩⟩
          rw [h3, ← ho, ← hs]

/-- C7 witness: the escape-reference file runs exactly three passes, and
the decomposition of the claim holds there concretely. -/
theorem claim7_witness :
    3 ≤ 3 ∧
    ∃ r1 r2,
      visitSourceFile 32 c4Prog true false emptyState c4File = .ok r1 ∧
      visitSourceFile 32 c4Prog false false r1.2 r1.1 = .ok r2 ∧
      ((r2.2.symbolsWithReferencesOutsideJsx.isEmpty = true ∧ 3 = 2 ∧
          c4ExpectedOut = r2.1 ∧ c4FinalState = r2.2) ∨
       (r2.2.symbolsWithReferencesOutsideJsx.isEmpty = false ∧ 3 = 3 ∧
         visitSourceFile 32 c4Prog false false r2.2 r1.1 =
           .ok (c4ExpectedOut, c4FinalState))) :=
  claim7_bounded_passes c4Prog 32 c4File c4ExpectedOut c4FinalState 3 rfl rfl

/-- C8 (amended): a node carrying the `glitz-dynamic` directive is
itself exempt from `visitNode`'s handling in every pass: it is returned
unchanged and the state (registries, diagnostics) is untouched — it is
neither registered, nor removed, nor replaced at that node.  Its
children are still traversed (the counterexample shows a descendant
being rewritten). -/
theorem claim8_dynamic_node_exempt (prog : Program) (p1 aS : Bool)
    (st : TState) (s : Stmt) (h : hasJSDocTag s "glitz-dynamic" = true) :
    visitNodeStmt prog p1 aS st s = .ok (some s, st) := by
  simp [visitNodeStmt, h]

/-- C8 witness: the exemption at the concrete `glitz-dynamic`-tagged
declaration of the counterexample file. -/
theorem claim8_witness :
    visitNodeStmt c8Prog true false emptyState c8DeclApp =
      .ok (some c8DeclApp, emptyState) :=
  claim8_dynamic_node_exempt c8Prog true false emptyState c8DeclApp rfl

/-- C9 (amended): the extension-form path registers nothing when the
parent binding is absent from `symbolToComponent` at visit time: if in
addition the generic-evaluation fallback declines (`evalComponent`
yields nothing), the first pass returns the declaration unchanged with
the state untouched.  (When the fallback accepts — the counterexample —
the child is registered through it even though the parent was never
registered.) -/
theorem claim9_extension_requires_registered_parent (prog : Program)
    (aS : Bool) (st : TState)
    (loc dloc cloc iloc ploc oloc olId psym nameSym : Nat) (isym : Option Nat)
    (nameText pText : String)
    (hpar : mapGet st.symbolToComponent psym = none)
    (hec : prog.evalComponent (.call cloc (.ident iloc isym styledName)
      (.cons (.ident ploc (some psym) pText) (.cons (.objLit oloc olId) .nil))) = none) :
    visitNodeStmt prog true aS st
      (.varStmt loc false [] (.cons (.mk dloc nameSym nameText
        (.someE (.call cloc (.ident iloc isym styledName)
          (.cons (.ident ploc (some psym) pText) (.cons (.objLit oloc olId) .nil))))) .nil))
    = .ok (some (.varStmt loc false [] (.cons (.mk dloc nameSym nameText
        (.someE (.call cloc (.ident iloc isym styledName)
          (.cons (.ident ploc (some psym) pText) (.cons (.objLit oloc olId) .nil))))) .nil)), st) := by
  simp only [visitNodeStmt, hasJSDocTag, List.contains, List.elem, Bool.false_eq_true,
    if_false, Bool.not_true, directFormBranch, extensionFormBranch,
    pascalCaseHeuristicBranch, hpar, hec, bind, Except.bind, ite_self,
    beq_self_eq_true, if_true]

/-- C9 witness: visiting `const Child = styled(Base, {...})` with an
empty registry and a declining generic evaluator changes nothing. -/
theorem claim9_witness :
    visitNodeStmt c4Prog true false emptyState c9DeclChild =
      .ok (some c9DeclChild, emptyState) :=
  claim9_extension_requires_registered_parent c4Prog false emptyState
    138 139 140 141 142 143 1 600 601 (some 51) "Child" "Base" rfl rfl

end StaticCss
